import Mathlib

/-
Shallow embedding of the divergence-detection engine of the HeikinAshi
repository (src/stockcharts/indicators/divergence.py and
src/stockcharts/indicators/pivots.py).

Modelling conventions:
* Prices, RSI and ATR values are exact rationals (ℚ); float rounding is
  idealised away.  Where IEEE-NaN semantics matter (the windowed swing-point
  detector, which compares raw series values with `<=`/`>=`), values are
  modelled by the type `FV` (a rational or NaN) with comparison operators
  that return false whenever NaN is involved, exactly like IEEE comparisons.
* A DataFrame is a list of (label, Bar) rows; labels model the timestamp
  index.  `posOf` models the positional dictionary `{idx: i for i, idx in
  enumerate(df.index)}` (on duplicate labels the later position wins, as for
  a Python dict); `barAt` models label-based `.loc`/`.at` access.
* The price column is `Close` and the indicator column `RSI` (the defaults
  used throughout the repository); the presence of the RSI column is modelled
  by a boolean flag, since the only column-related behaviour the claims need
  is the missing-indicator-column case.
* Python truthiness tests on pivot labels (`if r1_idx and r2_idx:`) are
  modelled as `Option.isSome`: the labels are pandas timestamps, which are
  always truthy.
* Fallible behaviour (the KeyError raised by `recent_df[rsi_col]` when the
  column is absent) is modelled with `Except`.
-/

namespace Stockcharts

/-- One row of the price/indicator DataFrame: High, Low, Close and RSI. -/
structure Bar where
  high : ℚ
  low : ℚ
  close : ℚ
  rsi : ℚ
deriving DecidableEq

instance : Inhabited Bar := ⟨⟨0, 0, 0, 0⟩⟩

/-- A DataFrame: rows of (index label, bar) in positional order. -/
abbrev DF := List (ℕ × Bar)

/-- Position of a label in the frame, mirroring the dictionary
`pos = {idx: i for i, idx in enumerate(df.index)}` (later duplicate wins). -/
def posOf : DF → ℕ → Option ℕ
  | [], _ => Option.none
  | (l', _) :: rest, l =>
    match posOf rest l with
    | some p => some (p + 1)
    | Option.none => if l' = l then some 0 else Option.none

/-- Label-based row access (`df.at[label, col]`); consistent with `posOf`. -/
def barAt : DF → ℕ → Option Bar
  | [], _ => Option.none
  | (l', b) :: rest, l =>
    match barAt rest l with
    | some b2 => some b2
    | Option.none => if l' = l then some b else Option.none

def close_at (df : DF) (l : ℕ) : ℚ := ((barAt df l).getD default).close

def rsi_at (df : DF) (l : ℕ) : ℚ := ((barAt df l).getD default).rsi

/-- A float value: either a rational number or IEEE NaN. -/
inductive FV where
  | num (q : ℚ)
  | nan
deriving DecidableEq

/-- IEEE `<=`: false whenever either side is NaN. -/
def fle : FV → FV → Bool
  | FV.num a, FV.num b => decide (a ≤ b)
  | _, _ => false

/-- IEEE `>=`: false whenever either side is NaN. -/
def fge : FV → FV → Bool
  | FV.num a, FV.num b => decide (b ≤ a)
  | _, _ => false

/-- The inner loop of `find_swing_points` deciding a swing high at `i`:
`is_high` stays true iff no offset `j ∈ [-w, w], j ≠ 0` has
`series.iloc[i] <= series.iloc[i+j]` (an IEEE comparison).
Offset `j = k - w` for `k ∈ [0, 2w]`; callers guarantee `w ≤ i`. -/
def is_swing_high (s : List FV) (w i : ℕ) : Bool :=
  (List.range (2 * w + 1)).all (fun k =>
    k == w || ! fle (s.getD i FV.nan) (s.getD (i + k - w) FV.nan))

/-- The symmetric swing-low test, refuted by `series.iloc[i] >= series.iloc[i+j]`. -/
def is_swing_low (s : List FV) (w i : ℕ) : Bool :=
  (List.range (2 * w + 1)).all (fun k =>
    k == w || ! fge (s.getD i FV.nan) (s.getD (i + k - w) FV.nan))

/-- `find_swing_points(series, window)`: two series of length `len(series)`,
holding the series value at positions assigned as swing highs / swing lows.
`none` models the never-assigned (NaN-initialised) entries; the scanned
positions are `range(window, len(series) - window)`. -/
def find_swing_points (s : List FV) (w : ℕ) : List (Option FV) × List (Option FV) :=
  ((List.range s.length).map (fun i =>
      if w ≤ i ∧ i < s.length - w ∧ is_swing_high s w i
      then some (s.getD i FV.nan) else Option.none),
   (List.range s.length).map (fun i =>
      if w ≤ i ∧ i < s.length - w ∧ is_swing_low s w i
      then some (s.getD i FV.nan) else Option.none))

/-- The labels of the reported pivots: `series.dropna().index` keeps exactly
the positions whose assigned value is a number (an assigned NaN is dropped
again, indistinguishable from an unassigned entry). -/
def reported_labels (labels : List ℕ) (vals : List (Option FV)) : List ℕ :=
  ((labels.zip vals).filter (fun p =>
     match p.2 with
     | some (FV.num _) => true
     | _ => false)).map Prod.fst

/-- True-range series of `_compute_atr`: row 0 has only the `high - low` term
(the shifted-close terms are NaN there and `.max(axis=1)` skips NaN); later
rows take the maximum of the three terms. -/
def true_range (df : DF) : List ℚ :=
  (List.range df.length).map (fun i =>
    let b := ((df.get? i).map Prod.snd).getD default
    if i = 0 then b.high - b.low
    else
      let pc := (((df.get? (i - 1)).map Prod.snd).getD default).close
      max (b.high - b.low) (max |b.high - pc| |b.low - pc|))

/-- `tr.rolling(period, min_periods=1).mean()`: at position `i` the mean of
the last `min(i+1, period)` true-range values. -/
def roll_mean (period : ℕ) (xs : List ℚ) : List ℚ :=
  (List.range xs.length).map (fun i =>
    let win := (xs.take (i + 1)).drop (i + 1 - period)
    win.sum / (win.length : ℚ))

/-- `_compute_atr(df, period)`. -/
def compute_atr (df : DF) (period : ℕ) : List ℚ :=
  roll_mean period (true_range df)

/-- `atr.at[label]`; in the scorer the label is always present (the pivot
lists were filtered by membership in the position map), so the NaN branch of
the source (`np.nan` when absent) is unreachable and ATR values are plain
rationals. -/
def atr_at (df : DF) (atr : List ℚ) (l : ℕ) : ℚ :=
  match posOf df l with
  | some p => atr.getD p 0
  | Option.none => 0

/-- Direction of a pivot / divergence sequence: `low` drives bullish
divergence, `high` drives bearish divergence. -/
inductive PKind where
  | low
  | high
deriving DecidableEq

/-- A scored 3-point divergence candidate (the dict built by
`find_three_point_sequences`, with its `meta` sub-dict flattened). -/
structure Candidate where
  kind : PKind
  price_idx : ℕ × ℕ × ℕ
  rsi_idx : ℕ × ℕ × ℕ
  price_vals : ℚ × ℚ × ℚ
  rsi_vals : ℚ × ℚ × ℚ
  score : ℚ
  span12 : ℚ
  span23 : ℚ
  atr_p1 : ℚ
  atr_p2 : ℚ
  atr_p3 : ℚ
deriving DecidableEq

/-- The scorer-internal aligner `nearest_rsi`: scan the RSI pivot labels in
order, keeping the first one attaining the smallest bar gap `≤ max_bar_gap`
(the update requires a strictly smaller gap, so earlier candidates win ties). -/
def nearest_rsi (df : DF) (rsi_pivots : List ℕ) (max_bar_gap : ℕ) (target : ℕ) :
    Option ℕ :=
  match posOf df target with
  | Option.none => Option.none
  | some tpos =>
    (rsi_pivots.foldl
      (fun st c =>
        match posOf df c with
        | Option.none => st
        | some cpos =>
          let gap := ((cpos : ℤ) - (tpos : ℤ)).natAbs
          if gap ≤ max_bar_gap ∧ gap < st.2 then (some c, gap) else st)
      ((Option.none : Option ℕ), max_bar_gap + 1)).1

/-- The body of one iteration of the scorer's sliding window: given the three
consecutive price-pivot labels, build the candidate or reject it.  Mirrors
lines 107-207 of `find_three_point_sequences` (bar-separation guard, RSI
alignment, monotonicity-with-tolerance, ATR magnitude floor, score). -/
def seq_step (df : DF) (atr : List ℚ) (rsi_pivots : List ℕ) (kind : PKind)
    (max_bar_gap : ℕ) (sequence_tolerance_pct min_magnitude_atr_mult : ℚ)
    (require_strict_order : Bool) (p1i p2i p3i : ℕ) : Option Candidate :=
  let pos1 := (posOf df p1i).getD 0
  let pos3 := (posOf df p3i).getD 0
  if ((pos3 : ℤ) - (pos1 : ℤ)).natAbs < 2 then Option.none
  else
    match nearest_rsi df rsi_pivots max_bar_gap p1i,
          nearest_rsi df rsi_pivots max_bar_gap p2i,
          nearest_rsi df rsi_pivots max_bar_gap p3i with
    | some r1i, some r2i, some r3i =>
      let p1 := close_at df p1i
      let p2 := close_at df p2i
      let p3 := close_at df p3i
      let r1 := rsi_at df r1i
      let r2 := rsi_at df r2i
      let r3 := rsi_at df r3i
      let ok_price : Bool :=
        match kind with
        | PKind.low =>
          if require_strict_order then decide (p2 < p1 ∧ p3 < p2)
          else decide (p2 ≤ p1 * (1 + sequence_tolerance_pct) ∧
                       p3 ≤ p2 * (1 + sequence_tolerance_pct))
        | PKind.high =>
          if require_strict_order then decide (p1 < p2 ∧ p2 < p3)
          else decide (p1 * (1 - sequence_tolerance_pct) ≤ p2 ∧
                       p2 * (1 - sequence_tolerance_pct) ≤ p3)
      let ok_rsi : Bool :=
        match kind with
        | PKind.low =>
          if require_strict_order then decide (r1 < r2 ∧ r2 < r3)
          else decide (r1 - 1/2 ≤ r2 ∧ r2 - 1/2 ≤ r3)
        | PKind.high =>
          if require_strict_order then decide (r2 < r1 ∧ r3 < r2)
          else decide (r2 ≤ r1 + 1/2 ∧ r3 ≤ r2 + 1/2)
      if ! (ok_price && ok_rsi) then Option.none
      else
        let atr_p1 := atr_at df atr p1i
        let atr_p2 := atr_at df atr p2i
        let atr_p3 := atr_at df atr p3i
        let span12 := |p1 - p2|
        let span23 := |p2 - p3|
        let mag_ok : Bool :=
          decide ((0 < atr_p1 ∧ min_magnitude_atr_mult * atr_p1 ≤ span12) ∨
                  (0 < atr_p2 ∧ min_magnitude_atr_mult * atr_p2 ≤ span23))
        if ! mag_ok then Option.none
        else
          let base := if 0 < atr_p2 then (span12 + span23) / (atr_p2 * 2) else 0
          let score :=
            base + (match kind with
              | PKind.low => ((r2 - r1) + (r3 - r2)) / 10
              | PKind.high => ((r1 - r2) + (r2 - r3)) / 10)
          some ⟨kind, (p1i, p2i, p3i), (r1i, r2i, r3i), (p1, p2, p3), (r1, r2, r3),
                score, span12, span23, atr_p1, atr_p2, atr_p3⟩
    | _, _, _ => Option.none

/-- Stable insertion into a descending-by-score list: the new element goes in
front of the first element with a score `≤` its own, so among equal scores the
earlier-inserted (earlier in the original list) element stays first. -/
def insert_by_score (c : Candidate) : List Candidate → List Candidate
  | [] => [c]
  | d :: ds => if d.score ≤ c.score then c :: d :: ds else d :: insert_by_score c ds

/-- Stable descending sort by score, modelling
`candidates.sort(key=lambda x: x["score"], reverse=True)`. -/
def sort_by_score : List Candidate → List Candidate
  | [] => []
  | c :: cs => insert_by_score c (sort_by_score cs)

/-- `find_three_point_sequences(df, price_idx, rsi_idx, kind, ...)` with the
default columns Close/RSI: filter the pivot labels by presence, slide a
window of three consecutive price pivots, and return the surviving candidates
sorted by descending score. -/
def find_three_point_sequences (df : DF) (price_pivots rsi_pivots : List ℕ)
    (kind : PKind) (max_bar_gap : ℕ)
    (sequence_tolerance_pct min_magnitude_atr_mult : ℚ) (atr_period : ℕ)
    (require_strict_order : Bool) : List Candidate :=
  let pIdx := price_pivots.filter (fun l => (posOf df l).isSome)
  let rIdx := rsi_pivots.filter (fun l => (posOf df l).isSome)
  if pIdx.length < 3 ∨ rIdx.length < 3 then []
  else
    let atr := compute_atr df atr_period
    sort_by_score ((List.range (pIdx.length - 2)).filterMap (fun i =>
      seq_step df atr rIdx kind max_bar_gap sequence_tolerance_pct
        min_magnitude_atr_mult require_strict_order
        (pIdx.getD i 0) (pIdx.getD (i + 1) 0) (pIdx.getD (i + 2) 0)))

/-- `series.ewm(span=span, adjust=False).mean()` continued from seed `e`:
each output is `a * x + (1 - a) * e_prev` with `a = 2 / (span + 1)`. -/
def ema_from (a : ℚ) (e : ℚ) : List ℚ → List ℚ
  | [] => []
  | x :: xs =>
    let e2 := a * x + (1 - a) * e
    e2 :: ema_from a e2 xs

/-- `_ema(series, span)`: EMA smoothing with `adjust=False`, seeded by the
first element. -/
def ema_smooth (span : ℕ) : List ℚ → List ℚ
  | [] => []
  | x :: xs => x :: ema_from (2 / ((span : ℚ) + 1)) x xs

/-- `series.diff()`: entry 0 is NaN (`none`), later entries are first
differences. -/
def diff_list (xs : List ℚ) : List (Option ℚ) :=
  (List.range xs.length).map (fun t =>
    if t = 0 then Option.none else some (xs.getD t 0 - xs.getD (t - 1) 0))

/-- IEEE `< 0` on a possibly-NaN value: false on NaN. -/
def olt0 : Option ℚ → Bool
  | some q => decide (q < 0)
  | Option.none => false

/-- IEEE `> 0` on a possibly-NaN value: false on NaN. -/
def ogt0 : Option ℚ → Bool
  | some q => decide (0 < q)
  | Option.none => false

/-- `derivative.shift(1)` evaluated at position `t`. -/
def shift1 (d : List (Option ℚ)) (t : ℕ) : Option ℚ :=
  if t = 0 then Option.none else d.getD (t - 1) Option.none

/-- Positions flagged by `(derivative.shift(1) < 0) & (derivative > 0)` on the
EMA-smoothed series: the pivot lows of `ema_derivative_pivots`. -/
def deriv_pivot_lows (xs : List ℚ) (span : ℕ) : List ℕ :=
  let d := diff_list (ema_smooth span xs)
  (List.range xs.length).filter (fun t => olt0 (shift1 d t) && ogt0 (d.getD t Option.none))

/-- Positions flagged by `(derivative.shift(1) > 0) & (derivative < 0)`: the
pivot highs of `ema_derivative_pivots`. -/
def deriv_pivot_highs (xs : List ℚ) (span : ℕ) : List ℕ :=
  let d := diff_list (ema_smooth span xs)
  (List.range xs.length).filter (fun t => ogt0 (shift1 d t) && olt0 (d.getD t Option.none))

/-- `ema_derivative_pivots(df, ...)` reduced to its four index lists
(price highs, price lows, rsi highs, rsi lows), as labels of `df`.  When the
RSI column is absent it returns four empty indexes (the graceful branch of
pivots.py); the price column (Close) is always present in this model. -/
def ema_derivative_pivots (df : DF) (rsi_col_present : Bool)
    (price_span rsi_span : ℕ) : List ℕ × List ℕ × List ℕ × List ℕ :=
  if ! rsi_col_present then ([], [], [], [])
  else
    let labels := df.map Prod.fst
    let closes := df.map (fun lb => lb.2.close)
    let rsis := df.map (fun lb => lb.2.rsi)
    ((deriv_pivot_highs closes price_span).map (fun t => labels.getD t 0),
     (deriv_pivot_lows closes price_span).map (fun t => labels.getD t 0),
     (deriv_pivot_highs rsis rsi_span).map (fun t => labels.getD t 0),
     (deriv_pivot_lows rsis rsi_span).map (fun t => labels.getD t 0))

/-- Strict lexicographic order on (gap, label) pairs: how Python's `min`
compares the tuples built in `nearest_by_bar`. -/
def pair_lt (a b : ℕ × ℕ) : Bool :=
  decide (a.1 < b.1 ∨ (a.1 = b.1 ∧ a.2 < b.2))

/-- The viable list of `nearest_by_bar`: `(bar gap, label)` for each candidate
label present in the frame with gap at most `max_gap`, in input order. -/
def viable_pairs (df : DF) (tpos max_gap : ℕ) (cands : List ℕ) : List (ℕ × ℕ) :=
  cands.filterMap (fun c =>
    match posOf df c with
    | some cpos =>
      let gap := ((cpos : ℤ) - (tpos : ℤ)).natAbs
      if gap ≤ max_gap then some (gap, c) else Option.none
    | Option.none => Option.none)

/-- The classifier's aligner `nearest_by_bar(target_idx, candidates)`:
`min(viable)[1]`, i.e. the label of the lexicographically smallest
(gap, label) pair; `none` when the target is absent or nothing is viable. -/
def nearest_by_bar (df : DF) (max_gap : ℕ) (target : ℕ) (cands : List ℕ) :
    Option ℕ :=
  match posOf df target with
  | Option.none => Option.none
  | some tpos =>
    match viable_pairs df tpos max_gap cands with
    | [] => Option.none
    | v :: vs => some ((vs.foldl (fun best x => if pair_lt x best then x else best) v).2)

/-- The `last_signal` field of the result dict. -/
inductive Signal where
  | none
  | bullish
  | bearish
deriving DecidableEq

/-- The result dict of `detect_divergence` (the human-readable detail strings
are presentation only and are omitted). -/
structure DivResult where
  bullish : Bool
  bearish : Bool
  last_signal : Signal
  bullish_indices : Option (List ℕ)
  bearish_indices : Option (List ℕ)
  bullish_score : ℚ
  bearish_score : ℚ
deriving DecidableEq

/-- The initial (and empty/negative) result. -/
def empty_result : DivResult :=
  ⟨false, false, Signal.none, Option.none, Option.none, 0, 0⟩

/-- Pivot-detection strategy selector (`pivot_method`). -/
inductive PivotMethod where
  | swing
  | ema_deriv
deriving DecidableEq

/-- The configuration record of `detect_divergence` (the three deprecated
zigzag parameters are unused in the source and omitted). -/
structure DetectParams where
  window : ℕ
  lookback : ℕ
  min_swing_points : ℕ
  index_proximity_factor : ℕ
  sequence_tolerance_pct : ℚ
  rsi_sequence_tolerance : ℚ
  pivot_method : PivotMethod
  ema_price_span : ℕ
  ema_rsi_span : ℕ
  use_sequence_scoring : Bool
  min_sequence_score : ℚ
  max_bar_gap : ℕ
  min_magnitude_atr_mult : ℚ
  atr_period : ℕ
deriving DecidableEq

/-- Missing-column failure: the KeyError raised by `recent_df[rsi_col]`. -/
inductive KeyErr where
  | rsi_missing
deriving DecidableEq

/-- `df.tail(lookback)`. -/
def df_tail (df : DF) (n : ℕ) : DF := df.drop (df.length - n)

/-- Pivot extraction inside `detect_divergence`: the ema-deriv branch calls
`ema_derivative_pivots` (graceful on a missing RSI column); the swing branch
runs `find_swing_points` on the Close and RSI series and keeps the labels of
the reported (non-NaN) entries — accessing the RSI series raises KeyError if
the column is absent.  Returns (price highs, price lows, rsi highs, rsi lows). -/
def extract_pivots (recent : DF) (rsi_col_present : Bool) (method : PivotMethod)
    (window price_span rsi_span : ℕ) :
    Except KeyErr (List ℕ × List ℕ × List ℕ × List ℕ) :=
  match method with
  | PivotMethod.ema_deriv =>
    Except.ok (ema_derivative_pivots recent rsi_col_present price_span rsi_span)
  | PivotMethod.swing =>
    if rsi_col_present then
      let labels := recent.map Prod.fst
      let prices := recent.map (fun lb => FV.num lb.2.close)
      let rsis := recent.map (fun lb => FV.num lb.2.rsi)
      let ph := find_swing_points prices window
      let rh := find_swing_points rsis window
      Except.ok (reported_labels labels ph.1, reported_labels labels ph.2,
                 reported_labels labels rh.1, reported_labels labels rh.2)
    else Except.error KeyErr.rsi_missing

/-- The score-gated block of `detect_divergence` (lines 386-451): when
enabled, take the best bullish and best bearish scored candidate at or above
the threshold and record them on the result. -/
def scoring_block (recent : DF) (price_high_idx price_low_idx rsi_high_idx rsi_low_idx : List ℕ)
    (max_bar_gap : ℕ) (seq_tol min_mag : ℚ) (atr_period : ℕ) (min_score : ℚ) :
    DivResult :=
  let bull := find_three_point_sequences recent price_low_idx rsi_low_idx
    PKind.low max_bar_gap seq_tol min_mag atr_period false
  let bear := find_three_point_sequences recent price_high_idx rsi_high_idx
    PKind.high max_bar_gap seq_tol min_mag atr_period false
  let r1 :=
    match bull with
    | [] => empty_result
    | c :: _ =>
      if min_score ≤ c.score then
        { empty_result with
          bullish := true, bullish_score := c.score, last_signal := Signal.bullish,
          bullish_indices := some [c.price_idx.1, c.price_idx.2.1, c.price_idx.2.2,
                                   c.rsi_idx.1, c.rsi_idx.2.1, c.rsi_idx.2.2] }
      else empty_result
  match bear with
  | [] => r1
  | c :: _ =>
    if min_score ≤ c.score then
      { r1 with
        bearish := true, bearish_score := c.score,
        last_signal := if r1.last_signal = Signal.none then Signal.bearish else r1.last_signal,
        bearish_indices := some [c.price_idx.1, c.price_idx.2.1, c.price_idx.2.2,
                                 c.rsi_idx.1, c.rsi_idx.2.1, c.rsi_idx.2.2] }
    else r1

/-- The 3-point attempt of the standard bullish branch (lines 461-507):
most recent three price lows, aligned by `nearest_by_bar`; the alignment
test `if r1_idx and r2_idx and r3_idx:` is Python truthiness on timestamps,
i.e. `isSome`. -/
def bull3_attempt (recent : DF) (r : DivResult) (price_low_idx rsi_low_idx : List ℕ)
    (max_gap_fb : ℕ) (seq_tol rsi_tol : ℚ) : DivResult :=
  let n := price_low_idx.length
  let p1i := price_low_idx.getD (n - 3) 0
  let p2i := price_low_idx.getD (n - 2) 0
  let p3i := price_low_idx.getD (n - 1) 0
  match nearest_by_bar recent max_gap_fb p1i rsi_low_idx,
        nearest_by_bar recent max_gap_fb p2i rsi_low_idx,
        nearest_by_bar recent max_gap_fb p3i rsi_low_idx with
  | some r1i, some r2i, some r3i =>
    let p1 := close_at recent p1i
    let p2 := close_at recent p2i
    let p3 := close_at recent p3i
    let r1v := rsi_at recent r1i
    let r2v := rsi_at recent r2i
    let r3v := rsi_at recent r3i
    if (p2 ≤ p1 * (1 - seq_tol) ∧ p3 ≤ p2 * (1 - seq_tol)) ∧
       (max (1/2 : ℚ) rsi_tol ≤ r2v - r1v ∧ max (1/2 : ℚ) rsi_tol ≤ r3v - r2v) then
      { r with bullish := true, last_signal := Signal.bullish,
               bullish_indices := some [p1i, p2i, p3i, r1i, r2i, r3i] }
    else r
  | _, _, _ => r

/-- The 2-point fallback of the standard bullish branch (lines 510-533),
guarded by `not result["bullish"]`. -/
def bull2_attempt (recent : DF) (r3 : DivResult) (price_low_idx rsi_low_idx : List ℕ)
    (max_gap_fb : ℕ) : DivResult :=
  if ¬ r3.bullish = true ∧ 2 ≤ price_low_idx.length ∧ 2 ≤ rsi_low_idx.length then
    let n := price_low_idx.length
    let p1i := price_low_idx.getD (n - 2) 0
    let p2i := price_low_idx.getD (n - 1) 0
    match nearest_by_bar recent max_gap_fb p1i rsi_low_idx,
          nearest_by_bar recent max_gap_fb p2i rsi_low_idx with
    | some r1i, some r2i =>
      let p1 := close_at recent p1i
      let p2 := close_at recent p2i
      let r1v := rsi_at recent r1i
      let r2v := rsi_at recent r2i
      if p2 < p1 ∧ (1/2 : ℚ) ≤ r2v - r1v then
        { r3 with bullish := true, last_signal := Signal.bullish,
                  bullish_indices := some [p1i, p2i, r1i, r2i] }
      else r3
    | _, _ => r3
  else r3

/-- The bullish track of the standard (fallback) classifier (lines 459-533):
try the most recent three price lows when `min_swing_points == 3`, then fall
back to the most recent two. -/
def bullish_track (recent : DF) (r : DivResult) (price_low_idx rsi_low_idx : List ℕ)
    (max_gap_fb min_swing_points : ℕ) (seq_tol rsi_tol : ℚ) : DivResult :=
  if min_swing_points ≤ price_low_idx.length ∧ min_swing_points ≤ rsi_low_idx.length then
    bull2_attempt recent
      (if min_swing_points = 3 ∧ 3 ≤ price_low_idx.length ∧ 3 ≤ rsi_low_idx.length then
        bull3_attempt recent r price_low_idx rsi_low_idx max_gap_fb seq_tol rsi_tol
       else r)
      price_low_idx rsi_low_idx max_gap_fb
  else r

/-- The 3-point attempt of the standard bearish branch (lines 541-592);
`last_signal` is only set if still `none`. -/
def bear3_attempt (recent : DF) (r : DivResult) (price_high_idx rsi_high_idx : List ℕ)
    (max_gap_fb : ℕ) (seq_tol rsi_tol : ℚ) : DivResult :=
  let n := price_high_idx.length
  let p1i := price_high_idx.getD (n - 3) 0
  let p2i := price_high_idx.getD (n - 2) 0
  let p3i := price_high_idx.getD (n - 1) 0
  match nearest_by_bar recent max_gap_fb p1i rsi_high_idx,
        nearest_by_bar recent max_gap_fb p2i rsi_high_idx,
        nearest_by_bar recent max_gap_fb p3i rsi_high_idx with
  | some r1i, some r2i, some r3i =>
    let p1 := close_at recent p1i
    let p2 := close_at recent p2i
    let p3 := close_at recent p3i
    let r1v := rsi_at recent r1i
    let r2v := rsi_at recent r2i
    let r3v := rsi_at recent r3i
    if (p1 * (1 + seq_tol) ≤ p2 ∧ p2 * (1 + seq_tol) ≤ p3) ∧
       (max (1/2 : ℚ) rsi_tol ≤ r1v - r2v ∧ max (1/2 : ℚ) rsi_tol ≤ r2v - r3v) then
      { r with bearish := true,
               last_signal := if r.last_signal = Signal.none then Signal.bearish
                              else r.last_signal,
               bearish_indices := some [p1i, p2i, p3i, r1i, r2i, r3i] }
    else r
  | _, _, _ => r

/-- The 2-point fallback of the standard bearish branch (lines 595-623). -/
def bear2_attempt (recent : DF) (r3 : DivResult) (price_high_idx rsi_high_idx : List ℕ)
    (max_gap_fb : ℕ) : DivResult :=
  if ¬ r3.bearish = true ∧ 2 ≤ price_high_idx.length ∧ 2 ≤ rsi_high_idx.length then
    let n := price_high_idx.length
    let p1i := price_high_idx.getD (n - 2) 0
    let p2i := price_high_idx.getD (n - 1) 0
    match nearest_by_bar recent max_gap_fb p1i rsi_high_idx,
          nearest_by_bar recent max_gap_fb p2i rsi_high_idx with
    | some r1i, some r2i =>
      let p1 := close_at recent p1i
      let p2 := close_at recent p2i
      let r1v := rsi_at recent r1i
      let r2v := rsi_at recent r2i
      if p1 < p2 ∧ (1/2 : ℚ) ≤ r1v - r2v then
        { r3 with bearish := true,
                  last_signal := if r3.last_signal = Signal.none then Signal.bearish
                                 else r3.last_signal,
                  bearish_indices := some [p1i, p2i, r1i, r2i] }
      else r3
    | _, _ => r3
  else r3

/-- The bearish track of the standard classifier (lines 536-623), the mirror
of `bullish_track`. -/
def bearish_track (recent : DF) (r : DivResult) (price_high_idx rsi_high_idx : List ℕ)
    (max_gap_fb min_swing_points : ℕ) (seq_tol rsi_tol : ℚ) : DivResult :=
  if min_swing_points ≤ price_high_idx.length ∧ min_swing_points ≤ rsi_high_idx.length then
    bear2_attempt recent
      (if min_swing_points = 3 ∧ 3 ≤ price_high_idx.length ∧ 3 ≤ rsi_high_idx.length then
        bear3_attempt recent r price_high_idx rsi_high_idx max_gap_fb seq_tol rsi_tol
       else r)
      price_high_idx rsi_high_idx max_gap_fb
  else r

/-- `detect_divergence(df, ...)`: early return on short data, pivot
extraction by the selected strategy, optional score-gated 3-point block with
early return on success, then the standard bullish/bearish tracks. -/
def detect_divergence (df : DF) (rsi_col_present : Bool) (p : DetectParams) :
    Except KeyErr DivResult :=
  if df.length < p.lookback then Except.ok empty_result
  else
    let recent := df_tail df p.lookback
    match extract_pivots recent rsi_col_present p.pivot_method p.window
            p.ema_price_span p.ema_rsi_span with
    | Except.error e => Except.error e
    | Except.ok (ph, pl, rh, rl) =>
      let scored :=
        if p.use_sequence_scoring = true ∧ p.min_swing_points = 3 then
          scoring_block recent ph pl rh rl p.max_bar_gap p.sequence_tolerance_pct
            p.min_magnitude_atr_mult p.atr_period p.min_sequence_score
        else empty_result
      if scored.bullish = true ∨ scored.bearish = true then Except.ok scored
      else
        let r1 := bullish_track recent scored pl rl
          (p.window * p.index_proximity_factor) p.min_swing_points
          p.sequence_tolerance_pct p.rsi_sequence_tolerance
        Except.ok (bearish_track recent r1 ph rh
          (p.window * p.index_proximity_factor) p.min_swing_points
          p.sequence_tolerance_pct p.rsi_sequence_tolerance)

/-- The `divergence_type` string argument of the breakout validators;
anything other than the two recognised strings falls through to `False`. -/
inductive DivType where
  | bullish
  | bearish
  | other
deriving DecidableEq

/-- `df[price_col].iloc[-1]` — the most recent close. -/
def last_close (df : DF) : ℚ := ((df.getLast?).map (fun lb => lb.2.close)).getD 0

/-- `check_breakout_occurred(df, divergence_idx, divergence_type, threshold)`.
Index labels are assumed unique (a pandas time index), so `.loc` agrees with
`posOf`/`barAt`. -/
def check_breakout_occurred (df : DF) (divergence_idx : ℕ) (divergence_type : DivType)
    (threshold : ℚ) : Bool :=
  if (posOf df divergence_idx).isNone then false
  else
    let divergence_price := close_at df divergence_idx
    let current_price := last_close df
    match divergence_type with
    | DivType.bullish => decide (divergence_price * (1 + threshold) ≤ current_price)
    | DivType.bearish => decide (current_price ≤ divergence_price * (1 - threshold))
    | DivType.other => false

/-- Maximum of a list of rationals seeded by its head (`Series.max` on the
nonempty slices used by `check_failed_breakout`). -/
def list_max : List ℚ → ℚ
  | [] => 0
  | x :: xs => xs.foldl max x

/-- Minimum of a list of rationals seeded by its head. -/
def list_min : List ℚ → ℚ
  | [] => 0
  | x :: xs => xs.foldl min x

/-- `check_failed_breakout(df, divergence_idx, divergence_type,
lookback_window, attempt_threshold, reversal_threshold)`. -/
def check_failed_breakout (df : DF) (divergence_idx : ℕ) (divergence_type : DivType)
    (lookback_window : ℕ) (attempt_threshold reversal_threshold : ℚ) : Bool :=
  match posOf df divergence_idx with
  | Option.none => false
  | some div_loc =>
    if df.length - 1 ≤ div_loc then false
    else
      let recent_data := (df.drop div_loc).take (lookback_window + 1)
      if recent_data.length < 2 then false
      else
        let divergence_price := close_at df divergence_idx
        let current_close := last_close df
        match divergence_type with
        | DivType.bullish =>
          let attempted_high := list_max (recent_data.map (fun lb => lb.2.high))
          decide (divergence_price * (1 + attempt_threshold) ≤ attempted_high ∧
                  current_close < divergence_price * (1 + reversal_threshold))
        | DivType.bearish =>
          let attempted_low := list_min (recent_data.map (fun lb => lb.2.low))
          decide (attempted_low ≤ divergence_price * (1 - attempt_threshold) ∧
                  divergence_price * (1 - reversal_threshold) < current_close)
        | DivType.other => false

/-! ### Concrete inputs used by counterexamples and witnesses -/

/-- Bar builder (High, Low, Close, RSI). -/
def mkbar (h l c r : ℚ) : Bar := ⟨h, l, c, r⟩

/-- Six bars with High = Low = Close descending 100 → 98 and flat RSI 50;
price pivots at labels 0, 2, 4. -/
def df6 : DF :=
  [(0, mkbar 100 100 100 50), (1, mkbar (199/2) (199/2) (199/2) 50),
   (2, mkbar 99 99 99 50), (3, mkbar (197/2) (197/2) (197/2) 50),
   (4, mkbar 98 98 98 50), (5, mkbar 98 98 98 50)]

/-- Eight bars whose swing pivots (window 1) are price lows 100, 100, 99 at
labels 1, 3, 5 with RSI lows 30, 30.2, 31, and flat price highs at labels
2, 4, 6.  The wide High−Low range (20 points) makes the ATR large enough to
reject every scored 3-point triple on the magnitude floor. -/
def df8 : DF :=
  [(0, mkbar 111 91 101 50), (1, mkbar 110 90 100 30),
   (2, mkbar 112 92 102 50), (3, mkbar 110 90 100 (151/5)),
   (4, mkbar 112 92 102 50), (5, mkbar 109 89 99 31),
   (6, mkbar 112 92 102 50), (7, mkbar 111 91 101 40)]

/-- Score-gated 3-point configuration for `df8`: window 1, lookback 8,
`min_swing_points = 3`, `use_sequence_scoring = true`, threshold 1. -/
def p8 : DetectParams :=
  ⟨1, 8, 3, 2, 1/500, 0, PivotMethod.swing, 5, 5, true, 1, 10, 1/2, 14⟩

/-- Sixty bars (enough for the default lookback of 60). -/
def df60 : DF := (List.range 60).map (fun i => (i, mkbar 0 0 0 0))

/-- The default configuration of `detect_divergence`. -/
def p_default : DetectParams :=
  ⟨5, 60, 2, 2, 1/500, 0, PivotMethod.swing, 5, 5, false, 1, 10, 1/2, 14⟩

/-- A single-bar frame whose only bar is also the divergence bar. -/
def df1b : DF := [(0, mkbar 100 100 100 50)]

/-- Five bars labelled 1..5 at positions 0..4 (for alignment tie-breaking). -/
def df7 : DF :=
  [(1, mkbar 0 0 0 0), (2, mkbar 0 0 0 0), (3, mkbar 0 0 0 0),
   (4, mkbar 0 0 0 0), (5, mkbar 0 0 0 0)]

instance : DecidableEq (Except KeyErr DivResult) := fun a b =>
  match a, b with
  | Except.ok x, Except.ok y =>
    if h : x = y then isTrue (by rw [h]) else isFalse (by simp [h])
  | Except.error x, Except.error y => isTrue (by cases x; cases y; rfl)
  | Except.ok _, Except.error _ => isFalse (by simp)
  | Except.error _, Except.ok _ => isFalse (by simp)

instance : DecidableEq (Except KeyErr (List ℕ × List ℕ × List ℕ × List ℕ)) := fun a b =>
  match a, b with
  | Except.ok x, Except.ok y =>
    if h : x = y then isTrue (by rw [h]) else isFalse (by simp [h])
  | Except.error x, Except.error y => isTrue (by cases x; cases y; rfl)
  | Except.ok _, Except.error _ => isFalse (by simp)
  | Except.error _, Except.ok _ => isFalse (by simp)

/-! ### Counterexamples and code-bug evaluations -/

/-- Claim C1, counterexample: `find_three_point_sequences` emits a bullish
3-point candidate from `df6` whose successive RSI pivot values are all equal
(50, 50, 50) — the indicator pivots do not exceed the previous value by the
minimum delta of 0.5 points; the scorer only requires each RSI value to stay
within 0.5 points below its predecessor. -/
theorem c1_counterexample :
    (find_three_point_sequences df6 [0, 2, 4] [0, 2, 4] PKind.low 10 (1/100) (1/2)
        14 false).map (fun c => c.rsi_vals) = [(50, 50, 50)] ∧
    ¬ ((1/2 : ℚ) ≤ 50 - 50) := by
  constructor
  · with_unfolding_all decide
  · with_unfolding_all decide

/-- Claim C2, counterexample: with score-gated mode enabled
(`use_sequence_scoring = true`, `min_swing_points = 3`) and the scorer
finding no candidate (ATR magnitude floor rejects all triples of `df8`), the
classifier still performs the 2-point fallback and reports a bullish 2-point
candidate (the 4-label index tuple [3, 5, 3, 5]) — contrary to the claim
that no 2-point fallback is performed in score-gated mode. -/
theorem c2_counterexample :
    p8.use_sequence_scoring = true ∧ p8.min_swing_points = 3 ∧
    detect_divergence df8 true p8 =
      Except.ok ⟨true, false, Signal.bullish, some [3, 5, 3, 5], Option.none, 0, 0⟩ := by
  refine ⟨rfl, rfl, ?_⟩
  with_unfolding_all decide

/-- Claim C3, counterexample: on the series [NaN, 5, NaN] with window 1,
position 1 is reported both as a swing high and as a swing low (value 5 in
both outputs), because every comparison against a NaN neighbour evaluates
false and so never refutes either test; the claim's strict-extremum and
disjointness properties fail on series containing NaN. -/
theorem c3_counterexample :
    find_swing_points [FV.nan, FV.num 5, FV.nan] 1 =
      ([Option.none, some (FV.num 5), Option.none],
       [Option.none, some (FV.num 5), Option.none]) := by
  with_unfolding_all decide

/-- Claim C5, failing-input evaluation: a 60-bar frame missing the RSI column
under the default configuration (swing pivots, lookback 60) raises KeyError
instead of returning the empty result, while the same call under the
ema-deriv pivot method degrades gracefully to the empty result. -/
theorem c5_code_bug_eval :
    detect_divergence df60 false p_default = Except.error KeyErr.rsi_missing ∧
    detect_divergence df60 false { p_default with pivot_method := PivotMethod.ema_deriv } =
      Except.ok empty_result := by
  refine ⟨rfl, ?_⟩
  with_unfolding_all decide

/-- Claim C6, counterexample: with the divergence bar being the last bar of
the series (no data after it) and threshold 0, `check_breakout_occurred`
returns `true` (the last close equals the divergence price, and
`current ≥ price * (1 + 0)` holds) — it has no no-data-after guard, unlike
`check_failed_breakout`. -/
theorem c6_counterexample :
    posOf df1b 0 = some 0 ∧ df1b.length = 1 ∧
    check_breakout_occurred df1b 0 DivType.bullish 0 = true := by
  refine ⟨rfl, rfl, ?_⟩
  with_unfolding_all decide

/-- Claim C7, counterexample: with candidates listed in the order [5, 1] and
both at bar distance 2 from target label 3, `nearest_by_bar` returns label 1
— the lexicographically smallest (gap, label) pair — not the first candidate
encountered in input order (5). -/
theorem c7_counterexample :
    viable_pairs df7 2 2 [5, 1] = [(2, 5), (2, 1)] ∧
    nearest_by_bar df7 2 3 [5, 1] = some 1 := by
  constructor
  · with_unfolding_all decide
  · with_unfolding_all decide

/-- Claim C8, counterexample: with span 1 the EMA is the series itself; on
[2, 1, 1] the derivative is [NaN, −1, 0].  At position 2 the previous
difference is negative and the current difference is zero (non-negative), so
the claim flags a pivot-low there, but the detector requires a strictly
positive current difference and reports nothing. -/
theorem c8_counterexample :
    diff_list (ema_smooth 1 [2, 1, 1]) = [Option.none, some (-1), some 0] ∧
    deriv_pivot_lows [2, 1, 1] 1 = [] := by
  constructor
  · with_unfolding_all decide
  · with_unfolding_all decide

/-! ### Structural lemmas about `detect_divergence` -/

/-- The 3-point bullish attempt never touches the conviction scores. -/
theorem bull3_attempt_scores (recent : DF) (r : DivResult) (a b : List ℕ)
    (g : ℕ) (s t : ℚ) :
    (bull3_attempt recent r a b g s t).bullish_score = r.bullish_score ∧
    (bull3_attempt recent r a b g s t).bearish_score = r.bearish_score := by
  unfold bull3_attempt
  dsimp only
  rcases h1 : nearest_by_bar recent g (a.getD (a.length - 3) 0) b with - | r1i
  · exact ⟨rfl, rfl⟩
  · rcases h2 : nearest_by_bar recent g (a.getD (a.length - 2) 0) b with - | r2i
    · exact ⟨rfl, rfl⟩
    · rcases h3 : nearest_by_bar recent g (a.getD (a.length - 1) 0) b with - | r3i
      · exact ⟨rfl, rfl⟩
      · constructor <;> (dsimp only; split <;> rfl)

/-- The 2-point bullish fallback never touches the conviction scores. -/
theorem bull2_attempt_scores (recent : DF) (r : DivResult) (a b : List ℕ) (g : ℕ) :
    (bull2_attempt recent r a b g).bullish_score = r.bullish_score ∧
    (bull2_attempt recent r a b g).bearish_score = r.bearish_score := by
  unfold bull2_attempt
  split
  · dsimp only
    rcases h1 : nearest_by_bar recent g (a.getD (a.length - 2) 0) b with - | r1i
    · exact ⟨rfl, rfl⟩
    · rcases h2 : nearest_by_bar recent g (a.getD (a.length - 1) 0) b with - | r2i
      · exact ⟨rfl, rfl⟩
      · constructor <;> (dsimp only; split <;> rfl)
  · exact ⟨rfl, rfl⟩

/-- The standard bullish track never touches the conviction scores. -/
theorem bullish_track_scores (recent : DF) (r : DivResult) (a b : List ℕ)
    (g m : ℕ) (s t : ℚ) :
    (bullish_track recent r a b g m s t).bullish_score = r.bullish_score ∧
    (bullish_track recent r a b g m s t).bearish_score = r.bearish_score := by
  unfold bullish_track
  split
  · constructor
    · rw [(bull2_attempt_scores recent _ a b g).1]
      split
      · exact (bull3_attempt_scores recent r a b g s t).1
      · rfl
    · rw [(bull2_attempt_scores recent _ a b g).2]
      split
      · exact (bull3_attempt_scores recent r a b g s t).2
      · rfl
  · exact ⟨rfl, rfl⟩

/-- The 3-point bearish attempt never touches the conviction scores. -/
theorem bear3_attempt_scores (recent : DF) (r : DivResult) (a b : List ℕ)
    (g : ℕ) (s t : ℚ) :
    (bear3_attempt recent r a b g s t).bullish_score = r.bullish_score ∧
    (bear3_attempt recent r a b g s t).bearish_score = r.bearish_score := by
  unfold bear3_attempt
  dsimp only
  rcases h1 : nearest_by_bar recent g (a.getD (a.length - 3) 0) b with - | r1i
  · exact ⟨rfl, rfl⟩
  · rcases h2 : nearest_by_bar recent g (a.getD (a.length - 2) 0) b with - | r2i
    · exact ⟨rfl, rfl⟩
    · rcases h3 : nearest_by_bar recent g (a.getD (a.length - 1) 0) b with - | r3i
      · exact ⟨rfl, rfl⟩
      · constructor <;> (dsimp only; split <;> rfl)

/-- The 2-point bearish fallback never touches the conviction scores. -/
theorem bear2_attempt_scores (recent : DF) (r : DivResult) (a b : List ℕ) (g : ℕ) :
    (bear2_attempt recent r a b g).bullish_score = r.bullish_score ∧
    (bear2_attempt recent r a b g).bearish_score = r.bearish_score := by
  unfold bear2_attempt
  split
  · dsimp only
    rcases h1 : nearest_by_bar recent g (a.getD (a.length - 2) 0) b with - | r1i
    · exact ⟨rfl, rfl⟩
    · rcases h2 : nearest_by_bar recent g (a.getD (a.length - 1) 0) b with - | r2i
      · exact ⟨rfl, rfl⟩
      · constructor <;> (dsimp only; split <;> rfl)
  · exact ⟨rfl, rfl⟩

/-- The standard bearish track never touches the conviction scores. -/
theorem bearish_track_scores (recent : DF) (r : DivResult) (a b : List ℕ)
    (g m : ℕ) (s t : ℚ) :
    (bearish_track recent r a b g m s t).bullish_score = r.bullish_score ∧
    (bearish_track recent r a b g m s t).bearish_score = r.bearish_score := by
  unfold bearish_track
  split
  · constructor
    · rw [(bear2_attempt_scores recent _ a b g).1]
      split
      · exact (bear3_attempt_scores recent r a b g s t).1
      · rfl
    · rw [(bear2_attempt_scores recent _ a b g).2]
      split
      · exact (bear3_attempt_scores recent r a b g s t).2
      · rfl
  · exact ⟨rfl, rfl⟩

/-- When the score-gated block is disabled (flag off or point-count ≠ 3),
any successful detection carries zero conviction scores: the standard tracks
never write the score fields. -/
theorem detect_scores_zero (df : DF) (rp : Bool) (p : DetectParams)
    (hg : ¬ (p.use_sequence_scoring = true ∧ p.min_swing_points = 3))
    (r : DivResult) (h : detect_divergence df rp p = Except.ok r) :
    r.bullish_score = 0 ∧ r.bearish_score = 0 := by
  unfold detect_divergence at h
  split at h
  · cases h
    exact ⟨rfl, rfl⟩
  · dsimp only at h
    rcases hx : extract_pivots (df_tail df p.lookback) rp p.pivot_method p.window
        p.ema_price_span p.ema_rsi_span with e | t
    · rw [hx] at h
      cases h
    · obtain ⟨ph, pl, rh, rl⟩ := t
      rw [hx] at h
      dsimp only at h
      rw [if_neg (show ¬ (empty_result.bullish = true ∨ empty_result.bearish = true)
            by simp [empty_result])] at h
      cases h
      constructor
      · rw [(bearish_track_scores _ _ _ _ _ _ _ _).1,
            (bullish_track_scores _ _ _ _ _ _ _ _).1]
        rfl
      · rw [(bearish_track_scores _ _ _ _ _ _ _ _).2,
            (bullish_track_scores _ _ _ _ _ _ _ _).2]
        rfl

/-- Claim C10: with `use_sequence_scoring` enabled but `min_swing_points = 2`
the scorer is never consulted — the run is identical to the unscored run and
both conviction scores of any returned result are zero. -/
theorem c10_no_scoring_on_two_point (df : DF) (rp : Bool) (p : DetectParams)
    (hs : p.use_sequence_scoring = true) (hm : p.min_swing_points = 2) :
    detect_divergence df rp p =
      detect_divergence df rp { p with use_sequence_scoring := false } ∧
    ∀ r, detect_divergence df rp p = Except.ok r →
      r.bullish_score = 0 ∧ r.bearish_score = 0 := by
  have hg : ¬ (p.use_sequence_scoring = true ∧ p.min_swing_points = 3) := by
    rw [hm]
    rintro ⟨-, h⟩
    exact absurd h (by decide)
  have hg2 : ¬ ((false : Bool) = true ∧ p.min_swing_points = 3) := by
    rintro ⟨h, -⟩
    exact absurd h (by decide)
  refine ⟨?_, fun r h => detect_scores_zero df rp p hg r h⟩
  unfold detect_divergence
  dsimp only
  by_cases hlen : df.length < p.lookback
  · rw [if_pos hlen, if_pos hlen]
  · rw [if_neg hlen, if_neg hlen]
    rcases hx : extract_pivots (df_tail df p.lookback) rp p.pivot_method p.window
        p.ema_price_span p.ema_rsi_span with e | t
    · rfl
    · obtain ⟨ph, pl, rh, rl⟩ := t
      dsimp only
      rw [if_neg hg, if_neg hg2]

/-- If the best bullish and best bearish scored candidates both miss the
threshold (or none exist), the score-gated block reports nothing. -/
theorem scoring_block_no_signal (recent : DF) (ph pl rh rl : List ℕ) (g : ℕ)
    (st mm : ℚ) (ap : ℕ) (ms : ℚ)
    (hb : ∀ c, (find_three_point_sequences recent pl rl PKind.low g st mm ap
        false).head? = some c → c.score < ms)
    (hr : ∀ c, (find_three_point_sequences recent ph rh PKind.high g st mm ap
        false).head? = some c → c.score < ms) :
    scoring_block recent ph pl rh rl g st mm ap ms = empty_result := by
  unfold scoring_block
  dsimp only
  rcases hbl : find_three_point_sequences recent pl rl PKind.low g st mm ap false
    with - | ⟨c, cs⟩
  · dsimp only
    rcases hbr : find_three_point_sequences recent ph rh PKind.high g st mm ap false
      with - | ⟨d, ds⟩
    · rfl
    · dsimp only
      rw [if_neg (not_le.mpr (hr d (by rw [hbr]; rfl)))]
  · dsimp only
    rw [if_neg (not_le.mpr (hb c (by rw [hbl]; rfl)))]
    rcases hbr : find_three_point_sequences recent ph rh PKind.high g st mm ap false
      with - | ⟨d, ds⟩
    · rfl
    · dsimp only
      rw [if_neg (not_le.mpr (hr d (by rw [hbr]; rfl)))]

/-- Claim C2 (amended): enabling score-gated mode suppresses the standard
fallback only when the scorer actually produces a qualifying candidate; when
every scored candidate misses the threshold (or none exists), the run is
identical to the unscored run — the standard 3-point attempt and the 2-point
fallback still execute. -/
theorem c2_failed_scoring_still_falls_back (df : DF) (rp : Bool) (p : DetectParams)
    (ph pl rh rl : List ℕ)
    (hpiv : extract_pivots (df_tail df p.lookback) rp p.pivot_method p.window
        p.ema_price_span p.ema_rsi_span = Except.ok (ph, pl, rh, rl))
    (hbull : ∀ c, (find_three_point_sequences (df_tail df p.lookback) pl rl
        PKind.low p.max_bar_gap p.sequence_tolerance_pct p.min_magnitude_atr_mult
        p.atr_period false).head? = some c → c.score < p.min_sequence_score)
    (hbear : ∀ c, (find_three_point_sequences (df_tail df p.lookback) ph rh
        PKind.high p.max_bar_gap p.sequence_tolerance_pct p.min_magnitude_atr_mult
        p.atr_period false).head? = some c → c.score < p.min_sequence_score) :
    detect_divergence df rp p =
      detect_divergence df rp { p with use_sequence_scoring := false } := by
  have hg2 : ¬ ((false : Bool) = true ∧ p.min_swing_points = 3) := by
    rintro ⟨h, -⟩
    exact absurd h (by decide)
  have hsb := scoring_block_no_signal (df_tail df p.lookback) ph pl rh rl
    p.max_bar_gap p.sequence_tolerance_pct p.min_magnitude_atr_mult p.atr_period
    p.min_sequence_score hbull hbear
  unfold detect_divergence
  dsimp only
  by_cases hlen : df.length < p.lookback
  · rw [if_pos hlen, if_pos hlen]
  · rw [if_neg hlen, if_neg hlen]
    rw [hpiv]
    dsimp only
    rw [if_neg hg2]
    by_cases hguard : p.use_sequence_scoring = true ∧ p.min_swing_points = 3
    · rw [if_pos hguard, hsb]
    · rw [if_neg hguard]

/-- Claim C2, witness: on `df8` (score-gated mode, scorer rejects every
triple on the magnitude floor) the run coincides with the unscored run. -/
theorem c2_witness :
    detect_divergence df8 true p8 =
      detect_divergence df8 true { p8 with use_sequence_scoring := false } :=
  c2_failed_scoring_still_falls_back df8 true p8 [2, 4, 6] [1, 3, 5] [2, 4, 6] [1, 3, 5]
    (by with_unfolding_all decide)
    (by
      intro c hc
      rw [show (find_three_point_sequences (df_tail df8 p8.lookback) [1, 3, 5] [1, 3, 5]
          PKind.low p8.max_bar_gap p8.sequence_tolerance_pct p8.min_magnitude_atr_mult
          p8.atr_period false) = [] from by with_unfolding_all decide] at hc
      cases hc)
    (by
      intro c hc
      rw [show (find_three_point_sequences (df_tail df8 p8.lookback) [2, 4, 6] [2, 4, 6]
          PKind.high p8.max_bar_gap p8.sequence_tolerance_pct p8.min_magnitude_atr_mult
          p8.atr_period false) = [] from by with_unfolding_all decide] at hc
      cases hc)

/-- Claim C10, witness: on `df8` with `min_swing_points` lowered to 2 and
scoring still enabled, the run equals the unscored run. -/
theorem c10_witness :
    detect_divergence df8 true { p8 with min_swing_points := 2 } =
      detect_divergence df8 true
        { { p8 with min_swing_points := 2 } with use_sequence_scoring := false } :=
  (c10_no_scoring_on_two_point df8 true { p8 with min_swing_points := 2 } rfl rfl).1

/-! ### The EMA-derivative pivot detector (claim C8) -/

theorem ema_from_length (a e : ℚ) (xs : List ℚ) :
    (ema_from a e xs).length = xs.length := by
  induction xs generalizing e with
  | nil => rfl
  | cons x xs ih => simp [ema_from, ih]

theorem ema_smooth_length (span : ℕ) (xs : List ℚ) :
    (ema_smooth span xs).length = xs.length := by
  cases xs with
  | nil => rfl
  | cons x xs => simp [ema_smooth, ema_from_length]

theorem diff_list_length (xs : List ℚ) : (diff_list xs).length = xs.length := by
  simp [diff_list]

theorem diff_list_getD (xs : List ℚ) (k : ℕ) (hk : k < xs.length) :
    (diff_list xs).getD k Option.none =
      if k = 0 then Option.none else some (xs.getD k 0 - xs.getD (k - 1) 0) := by
  unfold diff_list
  rw [List.getD_eq_getElem?_getD, List.getElem?_map, List.getElem?_range hk]
  rfl

/-- Claim C8 (amended): position `t` is flagged as an EMA-derivative pivot
low iff `t ≥ 2`, `t` is in range, the previous first difference of the
smoothed series is negative and the current difference is strictly positive
(not merely non-negative); pivot highs are the exact mirror. -/
theorem c8_pivot_flags (xs : List ℚ) (span t : ℕ) :
    (t ∈ deriv_pivot_lows xs span ↔
      2 ≤ t ∧ t < xs.length ∧
      (ema_smooth span xs).getD (t - 1) 0 - (ema_smooth span xs).getD (t - 2) 0 < 0 ∧
      0 < (ema_smooth span xs).getD t 0 - (ema_smooth span xs).getD (t - 1) 0) ∧
    (t ∈ deriv_pivot_highs xs span ↔
      2 ≤ t ∧ t < xs.length ∧
      0 < (ema_smooth span xs).getD (t - 1) 0 - (ema_smooth span xs).getD (t - 2) 0 ∧
      (ema_smooth span xs).getD t 0 - (ema_smooth span xs).getD (t - 1) 0 < 0) := by
  have hlen : (ema_smooth span xs).length = xs.length := ema_smooth_length span xs
  constructor
  · unfold deriv_pivot_lows
    rw [List.mem_filter, List.mem_range]
    constructor
    · rintro ⟨ht, hcond⟩
      rw [Bool.and_eq_true] at hcond
      obtain ⟨h1, h2⟩ := hcond
      unfold shift1 at h1
      by_cases ht0 : t = 0
      · rw [if_pos ht0] at h1
        exact absurd h1 (by simp [olt0])
      · rw [if_neg ht0] at h1
        rw [diff_list_getD _ _ (by omega)] at h1
        by_cases ht1 : t - 1 = 0
        · rw [if_pos ht1] at h1
          exact absurd h1 (by simp [olt0])
        · rw [if_neg ht1] at h1
          rw [diff_list_getD _ _ (by omega)] at h2
          rw [if_neg ht0] at h2
          refine ⟨by omega, ht, ?_, ?_⟩
          · have := of_decide_eq_true h1
            have h21 : t - 1 - 1 = t - 2 := by omega
            rw [h21] at this
            exact this
          · exact of_decide_eq_true h2
    · rintro ⟨h2t, ht, hprev, hcur⟩
      refine ⟨ht, ?_⟩
      rw [Bool.and_eq_true]
      constructor
      · unfold shift1
        rw [if_neg (by omega), diff_list_getD _ _ (by omega), if_neg (by omega)]
        have h21 : t - 1 - 1 = t - 2 := by omega
        rw [h21]
        exact decide_eq_true hprev
      · rw [diff_list_getD _ _ (by omega), if_neg (by omega)]
        exact decide_eq_true hcur
  · unfold deriv_pivot_highs
    rw [List.mem_filter, List.mem_range]
    constructor
    · rintro ⟨ht, hcond⟩
      rw [Bool.and_eq_true] at hcond
      obtain ⟨h1, h2⟩ := hcond
      unfold shift1 at h1
      by_cases ht0 : t = 0
      · rw [if_pos ht0] at h1
        exact absurd h1 (by simp [ogt0])
      · rw [if_neg ht0] at h1
        rw [diff_list_getD _ _ (by omega)] at h1
        by_cases ht1 : t - 1 = 0
        · rw [if_pos ht1] at h1
          exact absurd h1 (by simp [ogt0])
        · rw [if_neg ht1] at h1
          rw [diff_list_getD _ _ (by omega)] at h2
          rw [if_neg ht0] at h2
          refine ⟨by omega, ht, ?_, ?_⟩
          · have := of_decide_eq_true h1
            have h21 : t - 1 - 1 = t - 2 := by omega
            rw [h21] at this
            exact this
          · exact of_decide_eq_true h2
    · rintro ⟨h2t, ht, hprev, hcur⟩
      refine ⟨ht, ?_⟩
      rw [Bool.and_eq_true]
      constructor
      · unfold shift1
        rw [if_neg (by omega), diff_list_getD _ _ (by omega), if_neg (by omega)]
        have h21 : t - 1 - 1 = t - 2 := by omega
        rw [h21]
        exact decide_eq_true hprev
      · rw [diff_list_getD _ _ (by omega), if_neg (by omega)]
        exact decide_eq_true hcur

/-! ### Label lookup lemmas and the breakout validators (claim C6) -/

theorem posOf_lt_length (df : DF) (l p : ℕ) (h : posOf df l = some p) :
    p < df.length := by
  induction df generalizing p with
  | nil => simp [posOf] at h
  | cons hd tl ih =>
    unfold posOf at h
    rcases htl : posOf tl l with - | q
    · rw [htl] at h
      dsimp only at h
      split at h
      · cases h
        simp
      · cases h
    · rw [htl] at h
      dsimp only at h
      cases h
      have := ih q htl
      simp only [List.length_cons]
      omega

theorem barAt_none_of_posOf_none (df : DF) (l : ℕ) (h : posOf df l = Option.none) :
    barAt df l = Option.none := by
  induction df with
  | nil => rfl
  | cons hd tl ih =>
    unfold posOf at h
    unfold barAt
    rcases htl : posOf tl l with - | q
    · rw [htl] at h
      dsimp only at h
      rw [ih htl]
      split at h
      · cases h
      · simp_all
    · rw [htl] at h
      cases h

theorem barAt_posOf (df : DF) (l p : ℕ) (h : posOf df l = some p) :
    ∃ b : Bar, df.get? p = some (l, b) ∧ barAt df l = some b := by
  induction df generalizing p with
  | nil => simp [posOf] at h
  | cons hd tl ih =>
    unfold posOf at h
    unfold barAt
    rcases htl : posOf tl l with - | q
    · rw [htl] at h
      dsimp only at h
      rw [barAt_none_of_posOf_none tl l htl]
      by_cases hdl : hd.1 = l
      · rw [if_pos hdl] at h
        cases h
        refine ⟨hd.2, ?_, ?_⟩
        · rw [← hdl]
          rfl
        · dsimp only
          rw [if_pos hdl]
      · rw [if_neg hdl] at h
        cases h
    · rw [htl] at h
      dsimp only at h
      cases h
      obtain ⟨b, hget, hbar⟩ := ih q htl
      exact ⟨b, by simpa using hget, by rw [hbar]⟩

theorem last_close_eq (df : DF) (i : ℕ) (b : Bar)
    (hg : df.get? (df.length - 1) = some (i, b)) : last_close df = b.close := by
  unfold last_close
  rw [List.getLast?_eq_getElem?, ← List.get?_eq_getElem?, hg]
  rfl

/-- Claim C6 (amended): both predicates return false when the divergence
label is absent from the index; `check_failed_breakout` additionally returns
false when there is no data after the divergence bar, but
`check_breakout_occurred` has no such guard — at end-of-series it compares the
last close (which IS the divergence price) against the threshold, and returns
false there only under a strictly positive threshold and price. -/
theorem c6_breakout_guards_amended :
    (∀ (df : DF) (i : ℕ) (ty : DivType) (th : ℚ),
       posOf df i = Option.none → check_breakout_occurred df i ty th = false) ∧
    (∀ (df : DF) (i : ℕ) (ty : DivType) (lw : ℕ) (ta tr : ℚ),
       posOf df i = Option.none → check_failed_breakout df i ty lw ta tr = false) ∧
    (∀ (df : DF) (i : ℕ) (ty : DivType) (lw : ℕ) (ta tr : ℚ) (p : ℕ),
       posOf df i = some p → df.length - 1 ≤ p →
       check_failed_breakout df i ty lw ta tr = false) ∧
    (∀ (df : DF) (i : ℕ) (ty : DivType) (th : ℚ),
       posOf df i = some (df.length - 1) → 0 < th → 0 < close_at df i →
       check_breakout_occurred df i ty th = false) := by
  refine ⟨?_, ?_, ?_, ?_⟩
  · intro df i ty th h
    unfold check_breakout_occurred
    rw [h]
    rfl
  · intro df i ty lw ta tr h
    unfold check_failed_breakout
    rw [h]
  · intro df i ty lw ta tr p h hp
    unfold check_failed_breakout
    rw [h]
    dsimp only
    rw [if_pos hp]
  · intro df i ty th h hth hcl
    obtain ⟨b, hget, hbar⟩ := barAt_posOf df i (df.length - 1) h
    have hclose : close_at df i = b.close := by
      unfold close_at
      rw [hbar]
      rfl
    have hlast : last_close df = b.close := last_close_eq df i b hget
    have hbc : 0 < b.close := by rw [hclose] at hcl; exact hcl
    unfold check_breakout_occurred
    rw [h]
    dsimp only [Option.isNone]
    rw [if_neg (by simp)]
    rw [hclose, hlast]
    cases ty with
    | bullish =>
      have : b.close < b.close * (1 + th) := by nlinarith
      simpa using not_le.mpr this
    | bearish =>
      have : b.close * (1 - th) < b.close := by nlinarith
      simpa using not_le.mpr this
    | other => rfl

/-- Claim C6, witness: a strictly positive threshold at an end-of-series
divergence with positive price makes the already-resolved check return false. -/
theorem c6_witness : check_breakout_occurred df1b 0 DivType.bullish (1/100) = false :=
  c6_breakout_guards_amended.2.2.2 df1b 0 DivType.bullish (1/100)
    (by with_unfolding_all decide) (by norm_num) (by with_unfolding_all decide)

/-! ### Strictness of the windowed swing-point detector (claim C3) -/

theorem map_num_getD (ns : List ℚ) (j : ℕ) (hj : j < ns.length) :
    (ns.map FV.num).getD j FV.nan = FV.num (ns.getD j 0) := by
  rw [List.getD_eq_getElem?_getD, List.getElem?_map, List.getElem?_eq_getElem hj,
      List.getD_eq_getElem?_getD, List.getElem?_eq_getElem hj]
  rfl

theorem find_swing_points_fst_getD (s : List FV) (w i : ℕ) (hi : i < s.length) :
    (find_swing_points s w).1.getD i Option.none =
      if w ≤ i ∧ i < s.length - w ∧ is_swing_high s w i
      then some (s.getD i FV.nan) else Option.none := by
  unfold find_swing_points
  rw [List.getD_eq_getElem?_getD, List.getElem?_map, List.getElem?_range hi]
  rfl

theorem find_swing_points_snd_getD (s : List FV) (w i : ℕ) (hi : i < s.length) :
    (find_swing_points s w).2.getD i Option.none =
      if w ≤ i ∧ i < s.length - w ∧ is_swing_low s w i
      then some (s.getD i FV.nan) else Option.none := by
  unfold find_swing_points
  rw [List.getD_eq_getElem?_getD, List.getElem?_map, List.getElem?_range hi]
  rfl

theorem is_swing_high_map_num (ns : List ℚ) (w i : ℕ) (hw : w ≤ i)
    (hi : i < ns.length - w) :
    is_swing_high (ns.map FV.num) w i = true ↔
      ∀ k, k < 2 * w + 1 → k ≠ w → ns.getD (i + k - w) 0 < ns.getD i 0 := by
  unfold is_swing_high
  rw [List.all_eq_true]
  constructor
  · intro hall k hk hkw
    have := hall k (List.mem_range.mpr hk)
    rw [Bool.or_eq_true] at this
    rcases this with hkw2 | hfle
    · exact absurd (by simpa using hkw2) hkw
    · rw [map_num_getD ns i (by omega), map_num_getD ns (i + k - w) (by omega)] at hfle
      unfold fle at hfle
      rw [Bool.not_eq_eq_eq_not, Bool.not_true, decide_eq_false_iff_not] at hfle
      exact lt_of_not_le hfle
  · intro hlt k hkmem
    rw [List.mem_range] at hkmem
    rw [Bool.or_eq_true]
    by_cases hkw : k = w
    · left
      simpa using hkw
    · right
      rw [map_num_getD ns i (by omega), map_num_getD ns (i + k - w) (by omega)]
      unfold fle
      rw [Bool.not_eq_eq_eq_not, Bool.not_true, decide_eq_false_iff_not]
      exact not_le_of_lt (hlt k hkmem hkw)

theorem is_swing_low_map_num (ns : List ℚ) (w i : ℕ) (hw : w ≤ i)
    (hi : i < ns.length - w) :
    is_swing_low (ns.map FV.num) w i = true ↔
      ∀ k, k < 2 * w + 1 → k ≠ w → ns.getD i 0 < ns.getD (i + k - w) 0 := by
  unfold is_swing_low
  rw [List.all_eq_true]
  constructor
  · intro hall k hk hkw
    have := hall k (List.mem_range.mpr hk)
    rw [Bool.or_eq_true] at this
    rcases this with hkw2 | hfge
    · exact absurd (by simpa using hkw2) hkw
    · rw [map_num_getD ns i (by omega), map_num_getD ns (i + k - w) (by omega)] at hfge
      unfold fge at hfge
      rw [Bool.not_eq_eq_eq_not, Bool.not_true, decide_eq_false_iff_not] at hfge
      exact lt_of_not_le hfge
  · intro hlt k hkmem
    rw [List.mem_range] at hkmem
    rw [Bool.or_eq_true]
    by_cases hkw : k = w
    · left
      simpa using hkw
    · right
      rw [map_num_getD ns i (by omega), map_num_getD ns (i + k - w) (by omega)]
      unfold fge
      rw [Bool.not_eq_eq_eq_not, Bool.not_true, decide_eq_false_iff_not]
      exact not_le_of_lt (hlt k hkmem hkw)

/-- Claim C3 (amended): on NaN-free series and positive windows the claim
holds — a reported swing high carries the series value and is a strict
maximum over the full window, a reported swing low is a strict minimum, and
no position is reported as both.  (The NaN clause of the claim fails:
comparisons against NaN neighbours refute nothing, see the counterexample.) -/
theorem c3_swing_strictness (ns : List ℚ) (w i : ℕ) (hw : 1 ≤ w) :
    ((find_swing_points (ns.map FV.num) w).1.getD i Option.none ≠ Option.none →
      (find_swing_points (ns.map FV.num) w).1.getD i Option.none
          = some (FV.num (ns.getD i 0)) ∧
      ∀ k, k < 2 * w + 1 → k ≠ w → ns.getD (i + k - w) 0 < ns.getD i 0) ∧
    ((find_swing_points (ns.map FV.num) w).2.getD i Option.none ≠ Option.none →
      (find_swing_points (ns.map FV.num) w).2.getD i Option.none
          = some (FV.num (ns.getD i 0)) ∧
      ∀ k, k < 2 * w + 1 → k ≠ w → ns.getD i 0 < ns.getD (i + k - w) 0) ∧
    ¬ ((find_swing_points (ns.map FV.num) w).1.getD i Option.none ≠ Option.none ∧
       (find_swing_points (ns.map FV.num) w).2.getD i Option.none ≠ Option.none) := by
  have hml : (ns.map FV.num).length = ns.length := List.length_map ns FV.num
  by_cases hi : i < ns.length
  · rw [find_swing_points_fst_getD _ w i (by omega),
        find_swing_points_snd_getD _ w i (by omega)]
    rw [hml]
    refine ⟨?_, ?_, ?_⟩
    · intro hne
      have hC : w ≤ i ∧ i < ns.length - w ∧ is_swing_high (ns.map FV.num) w i := by
        by_contra hC
        rw [if_neg hC] at hne
        exact hne rfl
      rw [if_pos hC, map_num_getD ns i hi]
      exact ⟨rfl, (is_swing_high_map_num ns w i hC.1 hC.2.1).mp hC.2.2⟩
    · intro hne
      have hC : w ≤ i ∧ i < ns.length - w ∧ is_swing_low (ns.map FV.num) w i := by
        by_contra hC
        rw [if_neg hC] at hne
        exact hne rfl
      rw [if_pos hC, map_num_getD ns i hi]
      exact ⟨rfl, (is_swing_low_map_num ns w i hC.1 hC.2.1).mp hC.2.2⟩
    · rintro ⟨hne1, hne2⟩
      have hC1 : w ≤ i ∧ i < ns.length - w ∧ is_swing_high (ns.map FV.num) w i := by
        by_contra hC
        rw [if_neg hC] at hne1
        exact hne1 rfl
      have hC2 : w ≤ i ∧ i < ns.length - w ∧ is_swing_low (ns.map FV.num) w i := by
        by_contra hC
        rw [if_neg hC] at hne2
        exact hne2 rfl
      have hhi := (is_swing_high_map_num ns w i hC1.1 hC1.2.1).mp hC1.2.2 0
        (by omega) (by omega)
      have hlo := (is_swing_low_map_num ns w i hC2.1 hC2.2.1).mp hC2.2.2 0
        (by omega) (by omega)
      exact absurd hhi (not_lt_of_lt hlo)
  · have h1 : (find_swing_points (ns.map FV.num) w).1.getD i Option.none
        = Option.none := by
      apply List.getD_eq_default
      simp [find_swing_points]
      omega
    have h2 : (find_swing_points (ns.map FV.num) w).2.getD i Option.none
        = Option.none := by
      apply List.getD_eq_default
      simp [find_swing_points]
      omega
    rw [h1, h2]
    simp

/-- Claim C3, witness: on the NaN-free series [1, 5, 1] with window 1,
position 1 is reported as a swing high, its value is 5 and the left
neighbour is strictly below it. -/
theorem c3_witness :
    (find_swing_points [FV.num 1, FV.num 5, FV.num 1] 1).1.getD 1 Option.none
        = some (FV.num 5) ∧
    ([(1 : ℚ), 5, 1].getD (1 + 0 - 1) 0 < [(1 : ℚ), 5, 1].getD 1 0) := by
  have h := (c3_swing_strictness [1, 5, 1] 1 1 (by decide)).1
    (by with_unfolding_all decide)
  exact ⟨h.1, h.2 0 (by decide) (by decide)⟩

/-! ### The classifier's bar-distance aligner (claim C7) -/

/-- Bar distance of a candidate label from a target position. -/
def gap_of (df : DF) (tp c : ℕ) : ℕ :=
  ((((posOf df c).getD 0 : ℕ) : ℤ) - (tp : ℤ)).natAbs

theorem pair_lt_irrefl (a : ℕ × ℕ) : pair_lt a a = false := by
  unfold pair_lt
  rw [decide_eq_false_iff_not]
  omega

theorem pair_lt_trans {a b c : ℕ × ℕ} (h1 : pair_lt a b = true)
    (h2 : pair_lt b c = true) : pair_lt a c = true := by
  unfold pair_lt at h1 h2 ⊢
  rw [decide_eq_true_eq] at h1 h2 ⊢
  omega

theorem pair_le_lt_trans {a b c : ℕ × ℕ} (h1 : pair_lt b a = false)
    (h2 : pair_lt b c = true) : pair_lt a c = true := by
  unfold pair_lt at h1 h2 ⊢
  rw [decide_eq_false_iff_not] at h1
  rw [decide_eq_true_eq] at h2 ⊢
  omega

/-- The running minimum of `min(viable)` is an element of the list. -/
theorem foldl_min_mem (v : ℕ × ℕ) (vs : List (ℕ × ℕ)) :
    vs.foldl (fun best x => if pair_lt x best then x else best) v ∈ v :: vs := by
  induction vs generalizing v with
  | nil => simp
  | cons x xs ih =>
    simp only [List.foldl_cons]
    by_cases hxv : pair_lt x v = true
    · rw [if_pos hxv]
      rcases List.mem_cons.mp (ih x) with h | h
      · rw [h]
        exact List.mem_cons_of_mem _ (List.mem_cons_self _ _)
      · exact List.mem_cons_of_mem _ (List.mem_cons_of_mem _ h)
    · rw [if_neg hxv]
      rcases List.mem_cons.mp (ih v) with h | h
      · rw [h]
        exact List.mem_cons_self _ _
      · exact List.mem_cons_of_mem _ (List.mem_cons_of_mem _ h)

/-- No element of the list is lexicographically smaller than the running
minimum (Python's `min` keeps the first of equal elements, and the update
requires strict `<`). -/
theorem foldl_min_not_lt (v : ℕ × ℕ) (vs : List (ℕ × ℕ)) :
    ∀ y ∈ v :: vs,
      pair_lt y (vs.foldl (fun best x => if pair_lt x best then x else best) v)
        = false := by
  induction vs generalizing v with
  | nil =>
    intro y hy
    rcases List.mem_cons.mp hy with rfl | h
    · exact pair_lt_irrefl y
    · cases h
  | cons x xs ih =>
    intro y hy
    simp only [List.foldl_cons]
    by_cases hxv : pair_lt x v = true
    · rw [if_pos hxv]
      have ihy := ih x
      rcases List.mem_cons.mp hy with hyv | hy2
      · rw [hyv, Bool.eq_false_iff]
        intro habs
        have hx := ihy x (List.mem_cons_self _ _)
        rw [Bool.eq_false_iff] at hx
        exact hx (pair_lt_trans hxv habs)
      · exact ihy y hy2
    · rw [if_neg hxv]
      have ihy := ih v
      rcases List.mem_cons.mp hy with hyv | hy2
      · rw [hyv]
        exact ihy v (List.mem_cons_self _ _)
      · rcases List.mem_cons.mp hy2 with hyx | hy3
        · rw [hyx, Bool.eq_false_iff]
          intro habs
          have hv := ihy v (List.mem_cons_self _ _)
          rw [Bool.eq_false_iff] at hv
          exact hv (pair_le_lt_trans (Bool.eq_false_iff.mpr hxv) habs)
        · exact ihy y (List.mem_cons_of_mem _ hy3)

/-- Membership characterisation of the viable list. -/
theorem viable_pairs_mem (df : DF) (tp g : ℕ) (cands : List ℕ) (m : ℕ × ℕ) :
    m ∈ viable_pairs df tp g cands ↔
      m.2 ∈ cands ∧ m.1 ≤ g ∧
      ∃ cpos, posOf df m.2 = some cpos ∧
        m.1 = ((cpos : ℤ) - (tp : ℤ)).natAbs := by
  unfold viable_pairs
  rw [List.mem_filterMap]
  constructor
  · rintro ⟨c, hc, hf⟩
    rcases hpos : posOf df c with - | cpos
    · rw [hpos] at hf
      cases hf
    · rw [hpos] at hf
      dsimp only at hf
      split at hf
      · cases hf
        exact ⟨hc, by assumption, cpos, hpos, rfl⟩
      · cases hf
  · rintro ⟨hc, hle, cpos, hpos, hm⟩
    refine ⟨m.2, hc, ?_⟩
    rw [hpos]
    dsimp only
    rw [if_pos (by rw [← hm]; exact hle), ← hm]

/-- Claim C7 (amended): the aligner returns `none` iff the target is absent
or no candidate lies within `max_gap` bars; otherwise it returns a candidate
within `max_gap` whose bar distance is minimal, with ties broken by the
lexicographically smallest (distance, label) pair — the smallest position
label, not the first candidate in input order. -/
theorem c7_aligner_spec (df : DF) (g target : ℕ) (cands : List ℕ) :
    (nearest_by_bar df g target cands = Option.none ↔
      ∀ tp, posOf df target = some tp → viable_pairs df tp g cands = []) ∧
    (∀ r, nearest_by_bar df g target cands = some r →
      ∃ tp, posOf df target = some tp ∧ r ∈ cands ∧ gap_of df tp r ≤ g ∧
        (∀ c ∈ cands, ∀ cpos, posOf df c = some cpos →
          ((cpos : ℤ) - (tp : ℤ)).natAbs ≤ g →
          gap_of df tp r ≤ ((cpos : ℤ) - (tp : ℤ)).natAbs) ∧
        ∀ q ∈ viable_pairs df tp g cands, pair_lt q (gap_of df tp r, r) = false) := by
  unfold nearest_by_bar
  rcases hpos : posOf df target with - | tp
  · refine ⟨⟨fun _ tp h => ?_, fun _ => rfl⟩, fun r hr => ?_⟩
    · cases h
    · cases hr
  · dsimp only
    rcases hv : viable_pairs df tp g cands with - | ⟨v, vs⟩
    · refine ⟨⟨fun _ tp' h => ?_, fun _ => rfl⟩, fun r hr => ?_⟩
      · cases h
        exact hv
      · cases hr
    · constructor
      · constructor
        · intro h
          cases h
        · intro hall
          have := hall tp rfl
          rw [hv] at this
          cases this
      · intro r hr
        injection hr with hr
        have hm : (vs.foldl (fun best x => if pair_lt x best then x else best) v)
            ∈ viable_pairs df tp g cands := by
          rw [hv]
          exact foldl_min_mem v vs
        have hmin : ∀ y ∈ viable_pairs df tp g cands,
            pair_lt y (vs.foldl (fun best x => if pair_lt x best then x else best) v)
              = false := by
          rw [hv]
          exact foldl_min_not_lt v vs
        obtain ⟨hc, hle, cpos, hposc, hgap⟩ := (viable_pairs_mem df tp g cands _).mp hm
        rw [hr] at hc hposc
        have hgof : gap_of df tp r = ((cpos : ℤ) - (tp : ℤ)).natAbs := by
          unfold gap_of
          rw [hposc]
          rfl
        have hpair : (vs.foldl (fun best x => if pair_lt x best then x else best) v)
            = (gap_of df tp r, r) := by
          rw [hgof, ← hgap, ← hr]
        refine ⟨tp, rfl, hc, ?_, ?_, ?_⟩
        · rw [hgof, ← hgap]
          exact hle
        · intro c hcm cpos2 hpos2 hle2
          have hqm : (((cpos2 : ℤ) - (tp : ℤ)).natAbs, c) ∈ viable_pairs df tp g cands :=
            (viable_pairs_mem df tp g cands _).mpr ⟨hcm, hle2, cpos2, hpos2, rfl⟩
          have := hmin _ hqm
          rw [hpair] at this
          unfold pair_lt at this
          rw [decide_eq_false_iff_not] at this
          omega
        · intro q hq
          have := hmin q hq
          rw [hpair] at this
          exact this

/-- Claim C7, witness: on `df7` the aligner's answer for target 3 over
candidates [5, 1] is within the bound and distance-minimal. -/
theorem c7_witness :
    3 ∈ ([5, 1] : List ℕ) ∨
    (1 ∈ ([5, 1] : List ℕ) ∧ gap_of df7 2 1 ≤ 2) := by
  have h := (c7_aligner_spec df7 2 3 [5, 1]).2 1 (by with_unfolding_all decide)
  obtain ⟨tp, htp, hc, hle, -, -⟩ := h
  have htp2 : tp = 2 := by
    rw [show posOf df7 3 = some 2 from by decide] at htp
    injection htp with htp
    omega
  right
  exact ⟨hc, by rw [htp2] at hle; exact hle⟩

/-! ### Monotonicity of emitted scored candidates (claim C1) -/

theorem mem_insert_by_score (c d : Candidate) (l : List Candidate) :
    c ∈ insert_by_score d l ↔ c = d ∨ c ∈ l := by
  induction l with
  | nil =>
    unfold insert_by_score
    simp
  | cons e es ih =>
    unfold insert_by_score
    split
    · simp only [List.mem_cons]
    · rw [List.mem_cons, ih, List.mem_cons]
      tauto

theorem mem_sort_by_score (c : Candidate) (l : List Candidate) :
    c ∈ sort_by_score l ↔ c ∈ l := by
  induction l with
  | nil => simp [sort_by_score]
  | cons e es ih =>
    unfold sort_by_score
    rw [mem_insert_by_score, ih, List.mem_cons]

/-- Inversion of the scorer's per-window step in tolerance mode: an emitted
candidate passed the tolerance-banded monotonicity checks on its recorded
value tuples. -/
theorem seq_step_ok (df : DF) (atr : List ℚ) (rIdx : List ℕ) (k : PKind) (g : ℕ)
    (tol mm : ℚ) (p1i p2i p3i : ℕ) (cd : Candidate)
    (h : seq_step df atr rIdx k g tol mm false p1i p2i p3i = some cd) :
    (k = PKind.low →
      cd.price_vals.2.1 ≤ cd.price_vals.1 * (1 + tol) ∧
      cd.price_vals.2.2 ≤ cd.price_vals.2.1 * (1 + tol) ∧
      cd.rsi_vals.1 - 1/2 ≤ cd.rsi_vals.2.1 ∧
      cd.rsi_vals.2.1 - 1/2 ≤ cd.rsi_vals.2.2) ∧
    (k = PKind.high →
      cd.price_vals.1 * (1 - tol) ≤ cd.price_vals.2.1 ∧
      cd.price_vals.2.1 * (1 - tol) ≤ cd.price_vals.2.2 ∧
      cd.rsi_vals.2.1 ≤ cd.rsi_vals.1 + 1/2 ∧
      cd.rsi_vals.2.2 ≤ cd.rsi_vals.2.1 + 1/2) := by
  have bfneq : ¬ ((false : Bool) = true) := by decide
  unfold seq_step at h
  dsimp only at h
  by_cases hsep : ((((posOf df p3i).getD 0 : ℕ) : ℤ) -
      (((posOf df p1i).getD 0 : ℕ) : ℤ)).natAbs < 2
  · rw [if_pos hsep] at h
    cases h
  · rw [if_neg hsep] at h
    rcases hn1 : nearest_rsi df rIdx g p1i with - | r1i <;> rw [hn1] at h
    · dsimp only at h
      cases h
    · rcases hn2 : nearest_rsi df rIdx g p2i with - | r2i <;> rw [hn2] at h
      · dsimp only at h
        cases h
      · rcases hn3 : nearest_rsi df rIdx g p3i with - | r3i <;> rw [hn3] at h
        · dsimp only at h
          cases h
        · dsimp only at h
          cases k with
          | low =>
            refine ⟨fun _ => ?_, fun hk => nomatch hk⟩
            dsimp only at h
            rw [if_neg bfneq, if_neg bfneq] at h
            split at h
            · cases h
            · split at h
              · cases h
              · cases h
                rename_i hok hmag
                simp only [Bool.not_eq_true, Bool.not_eq_false', Bool.and_eq_true,
                  decide_eq_true_eq] at hok
                tauto
          | high =>
            refine ⟨(fun hk => nomatch hk), fun _ => ?_⟩
            dsimp only at h
            rw [if_neg bfneq, if_neg bfneq] at h
            split at h
            · cases h
            · split at h
              · cases h
              · cases h
                rename_i hok hmag
                simp only [Bool.not_eq_true, Bool.not_eq_false', Bool.and_eq_true,
                  decide_eq_true_eq] at hok
                tauto

/-- Claim C1 (amended): in tolerance mode every emitted 3-point candidate of
the scorer has price pivots descending within the `(1 + tolerance)` band for
the bullish kind (ascending within `(1 - tolerance)` for bearish), and RSI
pivots that merely stay within a fixed 0.5-point band of the previous value
(`r_prev - 0.5 ≤ r_next` bullish, `r_next ≤ r_prev + 0.5` bearish) — the
scorer does not require the indicator to rise by a minimum delta. -/
theorem c1_scored_monotonicity (df : DF) (pp rp : List ℕ) (k : PKind) (g : ℕ)
    (tol mm : ℚ) (ap : ℕ) (cd : Candidate)
    (hmem : cd ∈ find_three_point_sequences df pp rp k g tol mm ap false) :
    (k = PKind.low →
      cd.price_vals.2.1 ≤ cd.price_vals.1 * (1 + tol) ∧
      cd.price_vals.2.2 ≤ cd.price_vals.2.1 * (1 + tol) ∧
      cd.rsi_vals.1 - 1/2 ≤ cd.rsi_vals.2.1 ∧
      cd.rsi_vals.2.1 - 1/2 ≤ cd.rsi_vals.2.2) ∧
    (k = PKind.high →
      cd.price_vals.1 * (1 - tol) ≤ cd.price_vals.2.1 ∧
      cd.price_vals.2.1 * (1 - tol) ≤ cd.price_vals.2.2 ∧
      cd.rsi_vals.2.1 ≤ cd.rsi_vals.1 + 1/2 ∧
      cd.rsi_vals.2.2 ≤ cd.rsi_vals.2.1 + 1/2) := by
  unfold find_three_point_sequences at hmem
  dsimp only at hmem
  split at hmem
  · cases hmem
  · rw [mem_sort_by_score] at hmem
    obtain ⟨i, hi, hstep⟩ := List.mem_filterMap.mp hmem
    exact seq_step_ok df _ _ k g tol mm _ _ _ cd hstep

/-- The flat-RSI candidate emitted from `df6`. -/
def cand6 : Candidate :=
  ⟨PKind.low, (0, 2, 4), (0, 2, 4), (100, 99, 98), (50, 50, 50), 3, 1, 1, 0, 1/3, 2/5⟩

/-- Claim C1, witness: the `df6` candidate satisfies the amended band
conditions (price within tolerance, RSI within the 0.5-point band). -/
theorem c1_witness :
    cand6.price_vals.2.1 ≤ cand6.price_vals.1 * (1 + 1/100) ∧
    cand6.rsi_vals.1 - 1/2 ≤ cand6.rsi_vals.2.1 := by
  have h := (c1_scored_monotonicity df6 [0, 2, 4] [0, 2, 4] PKind.low 10 (1/100)
    (1/2) 14 cand6 (by with_unfolding_all decide)).1 rfl
  exact ⟨h.1, h.2.2.1⟩

/-! ### Scale invariance of the scorer (claim C9) -/

/-- Scale the price columns (High, Low, Close) of a bar by `c`; RSI is a
bounded oscillator and is not scaled. -/
def scale_bar (c : ℚ) (b : Bar) : Bar := ⟨c * b.high, c * b.low, c * b.close, b.rsi⟩

/-- Scale the whole price series of a frame by `c` (labels unchanged). -/
def scale_df (c : ℚ) (df : DF) : DF := df.map (fun lb => (lb.1, scale_bar c lb.2))

/-- The image of a candidate under price scaling: price values, spans and
ATRs scale, indices, RSI values and the score do not. -/
def scale_candidate (c : ℚ) (cd : Candidate) : Candidate :=
  { cd with
    price_vals := (c * cd.price_vals.1, c * cd.price_vals.2.1, c * cd.price_vals.2.2),
    span12 := c * cd.span12, span23 := c * cd.span23,
    atr_p1 := c * cd.atr_p1, atr_p2 := c * cd.atr_p2, atr_p3 := c * cd.atr_p3 }

theorem posOf_scale (c : ℚ) (df : DF) (l : ℕ) :
    posOf (scale_df c df) l = posOf df l := by
  induction df with
  | nil => rfl
  | cons hd tl ih =>
    show posOf ((hd.1, scale_bar c hd.2) :: scale_df c tl) l = _
    unfold posOf
    rw [ih]

theorem barAt_scale (c : ℚ) (df : DF) (l : ℕ) :
    barAt (scale_df c df) l = (barAt df l).map (scale_bar c) := by
  induction df with
  | nil => rfl
  | cons hd tl ih =>
    show barAt ((hd.1, scale_bar c hd.2) :: scale_df c tl) l = _
    unfold barAt
    rw [ih]
    cases barAt tl l with
    | none =>
      dsimp only [Option.map]
      split <;> rfl
    | some b => rfl

theorem close_at_scale (c : ℚ) (df : DF) (l : ℕ) :
    close_at (scale_df c df) l = c * close_at df l := by
  unfold close_at
  rw [barAt_scale]
  cases barAt df l with
  | none =>
    show (default : Bar).close = c * (default : Bar).close
    show (0 : ℚ) = c * 0
    rw [mul_zero]
  | some b => rfl

theorem rsi_at_scale (c : ℚ) (df : DF) (l : ℕ) :
    rsi_at (scale_df c df) l = rsi_at df l := by
  unfold rsi_at
  rw [barAt_scale]
  cases barAt df l with
  | none => rfl
  | some b => rfl

theorem getD_map_mul (c : ℚ) (l : List ℚ) (p : ℕ) :
    (l.map (fun x => c * x)).getD p 0 = c * l.getD p 0 := by
  rw [List.getD_eq_getElem?_getD, List.getElem?_map, List.getD_eq_getElem?_getD]
  cases l[p]? with
  | none => simp
  | some v => rfl

theorem atr_at_scale (c : ℚ) (df : DF) (atr : List ℚ) (l : ℕ) :
    atr_at (scale_df c df) (atr.map (fun x => c * x)) l = c * atr_at df atr l := by
  unfold atr_at
  rw [posOf_scale]
  cases posOf df l with
  | none => simp
  | some p => exact getD_map_mul c atr p

theorem sum_map_mul (c : ℚ) (l : List ℚ) :
    (l.map (fun x => c * x)).sum = c * l.sum := by
  induction l with
  | nil => simp
  | cons x xs ih =>
    simp only [List.map_cons, List.sum_cons, ih]
    ring

theorem true_range_scale (c : ℚ) (hc : 0 ≤ c) (df : DF) :
    true_range (scale_df c df) = (true_range df).map (fun x => c * x) := by
  unfold true_range
  rw [List.map_map]
  have hlen : (scale_df c df).length = df.length := by simp [scale_df]
  rw [hlen]
  apply List.map_congr_left
  intro i hi
  rw [List.mem_range] at hi
  have hget : ((scale_df c df).get? i).map Prod.snd
      = ((df.get? i).map Prod.snd).map (scale_bar c) := by
    unfold scale_df
    rw [List.get?_map]
    cases df.get? i <;> rfl
  dsimp only [Function.comp]
  rw [hget]
  rcases hgi : df.get? i with - | lb
  · rw [List.get?_eq_getElem?] at hgi
    rw [List.getElem?_eq_none_iff] at hgi
    omega
  · by_cases hi0 : i = 0
    · rw [if_pos hi0, if_pos hi0]
      dsimp only [scale_bar, Option.map, Option.getD]
      ring
    · rw [if_neg hi0, if_neg hi0]
      have hget2 : ((scale_df c df).get? (i - 1)).map Prod.snd
          = ((df.get? (i - 1)).map Prod.snd).map (scale_bar c) := by
        unfold scale_df
        rw [List.get?_map]
        cases df.get? (i - 1) <;> rfl
      rw [hget2]
      rcases hgj : df.get? (i - 1) with - | lb2
      · rw [List.get?_eq_getElem?, List.getElem?_eq_none_iff] at hgj
        omega
      · dsimp only [Option.map, Option.getD, scale_bar]
        rw [show c * lb.2.high - c * lb.2.low = c * (lb.2.high - lb.2.low) by ring,
            show c * lb.2.high - c * lb2.2.close = c * (lb.2.high - lb2.2.close) by ring,
            show c * lb.2.low - c * lb2.2.close = c * (lb.2.low - lb2.2.close) by ring,
            abs_mul, abs_mul, abs_of_nonneg hc,
            mul_max_of_nonneg _ _ hc, mul_max_of_nonneg _ _ hc]

theorem roll_mean_scale (c : ℚ) (p : ℕ) (xs : List ℚ) :
    roll_mean p (xs.map (fun x => c * x)) = (roll_mean p xs).map (fun x => c * x) := by
  unfold roll_mean
  rw [List.map_map, List.length_map]
  apply List.map_congr_left
  intro i hi
  dsimp only [Function.comp]
  rw [← List.map_take, ← List.map_drop, sum_map_mul, List.length_map, mul_div_assoc]

theorem compute_atr_scale (c : ℚ) (hc : 0 ≤ c) (df : DF) (ap : ℕ) :
    compute_atr (scale_df c df) ap = (compute_atr df ap).map (fun x => c * x) := by
  unfold compute_atr
  rw [true_range_scale c hc df, roll_mean_scale]

theorem nearest_rsi_scale (c : ℚ) (df : DF) (rIdx : List ℕ) (g t : ℕ) :
    nearest_rsi (scale_df c df) rIdx g t = nearest_rsi df rIdx g t := by
  unfold nearest_rsi
  simp only [posOf_scale]

theorem filterMap_option_map {α β γ : Type} (f : β → γ) (g : α → Option β)
    (l : List α) :
    l.filterMap (fun a => (g a).map f) = (l.filterMap g).map f := by
  induction l with
  | nil => rfl
  | cons x xs ih =>
    rw [List.filterMap_cons, List.filterMap_cons]
    cases g x with
    | none => simpa using ih
    | some b => simp [ih]

theorem insert_by_score_map_scale (c : ℚ) (d : Candidate) (l : List Candidate) :
    insert_by_score (scale_candidate c d) (l.map (scale_candidate c)) =
      (insert_by_score d l).map (scale_candidate c) := by
  induction l with
  | nil => rfl
  | cons e es ih =>
    show insert_by_score (scale_candidate c d)
        (scale_candidate c e :: es.map (scale_candidate c)) = _
    unfold insert_by_score
    have hse : (scale_candidate c e).score = e.score := rfl
    have hsd : (scale_candidate c d).score = d.score := rfl
    rw [hse, hsd]
    split
    · rfl
    · rw [ih]
      rfl

theorem sort_by_score_map_scale (c : ℚ) (l : List Candidate) :
    sort_by_score (l.map (scale_candidate c)) =
      (sort_by_score l).map (scale_candidate c) := by
  induction l with
  | nil => rfl
  | cons e es ih =>
    show sort_by_score (scale_candidate c e :: es.map (scale_candidate c)) = _
    unfold sort_by_score
    rw [ih, insert_by_score_map_scale]

theorem seq_step_scale (c : ℚ) (hc : 0 < c) (df : DF) (atr : List ℚ)
    (rIdx : List ℕ) (k : PKind) (g : ℕ) (tol mm : ℚ) (strict : Bool)
    (p1i p2i p3i : ℕ) :
    seq_step (scale_df c df) (atr.map (fun x => c * x)) rIdx k g tol mm strict
        p1i p2i p3i
      = (seq_step df atr rIdx k g tol mm strict p1i p2i p3i).map
          (scale_candidate c) := by
  unfold seq_step
  simp only [posOf_scale, nearest_rsi_scale]
  by_cases hsep : ((((posOf df p3i).getD 0 : ℕ) : ℤ) -
      (((posOf df p1i).getD 0 : ℕ) : ℤ)).natAbs < 2
  · rw [if_pos hsep, if_pos hsep]
    rfl
  · rw [if_neg hsep, if_neg hsep]
    rcases hn1 : nearest_rsi df rIdx g p1i with - | r1i
    · rfl
    · rcases hn2 : nearest_rsi df rIdx g p2i with - | r2i
      · rfl
      · rcases hn3 : nearest_rsi df rIdx g p3i with - | r3i
        · rfl
        · dsimp only
          simp only [close_at_scale, rsi_at_scale, atr_at_scale]
          generalize close_at df p1i = p1
          generalize close_at df p2i = p2
          generalize close_at df p3i = p3
          generalize rsi_at df r1i = r1
          generalize rsi_at df r2i = r2
          generalize rsi_at df r3i = r3
          generalize atr_at df atr p1i = a1
          generalize atr_at df atr p2i = a2
          generalize atr_at df atr p3i = a3
          have hle : ∀ x y : ℚ, (c * x ≤ c * y) ↔ (x ≤ y) := fun x y =>
            mul_le_mul_left hc
          have hlt : ∀ x y : ℚ, (c * x < c * y) ↔ (x < y) := fun x y =>
            mul_lt_mul_left hc
          have hpos : ∀ x : ℚ, (0 < c * x) ↔ (0 < x) := fun x =>
            mul_pos_iff_of_pos_left hc
          have habs : ∀ x y : ℚ, |c * x - c * y| = c * |x - y| := fun x y => by
            rw [show c * x - c * y = c * (x - y) by ring, abs_mul,
                abs_of_nonneg (le_of_lt hc)]
          have hmas : ∀ x y : ℚ, c * x * y = c * (x * y) := fun x y => mul_assoc c x y
          have hmm2 : ∀ x : ℚ, mm * (c * x) = c * (mm * x) := fun x => by ring
          have hadd : ∀ x y : ℚ, c * x + c * y = c * (x + y) := fun x y => by ring
          have hdiv : ∀ x y : ℚ, (c * x) / (c * y) = x / y := fun x y =>
            mul_div_mul_left x y (ne_of_gt hc)
          simp only [habs, hmas, hmm2, hle, hlt, hpos, hadd, hdiv,
            apply_ite (Option.map (scale_candidate c)), Option.map_none',
            Option.map_some']
          rfl

/-- Claim C9: scaling the whole price series (High, Low, Close — hence the
ATR) by a positive constant maps the scorer's output candidate list through
`scale_candidate` pointwise; in particular the sequence of (price indices,
RSI indices, score) triples — the descending-score ranking — is unchanged. -/
theorem c9_scale_invariance (df : DF) (pp rp : List ℕ) (k : PKind) (g : ℕ)
    (tol mm : ℚ) (ap : ℕ) (strict : Bool) (c : ℚ) (hc : 0 < c) :
    find_three_point_sequences (scale_df c df) pp rp k g tol mm ap strict
      = (find_three_point_sequences df pp rp k g tol mm ap strict).map
          (scale_candidate c) ∧
    (find_three_point_sequences (scale_df c df) pp rp k g tol mm ap strict).map
        (fun cd => (cd.price_idx, cd.rsi_idx, cd.score))
      = (find_three_point_sequences df pp rp k g tol mm ap strict).map
          (fun cd => (cd.price_idx, cd.rsi_idx, cd.score)) := by
  have hmain : find_three_point_sequences (scale_df c df) pp rp k g tol mm ap strict
      = (find_three_point_sequences df pp rp k g tol mm ap strict).map
          (scale_candidate c) := by
    unfold find_three_point_sequences
    simp only [posOf_scale]
    split
    · rfl
    · rw [compute_atr_scale c (le_of_lt hc)]
      rw [show (fun i => seq_step (scale_df c df)
            ((compute_atr df ap).map (fun x => c * x))
            (rp.filter (fun l => (posOf df l).isSome)) k g tol mm strict
            ((pp.filter (fun l => (posOf df l).isSome)).getD i 0)
            ((pp.filter (fun l => (posOf df l).isSome)).getD (i + 1) 0)
            ((pp.filter (fun l => (posOf df l).isSome)).getD (i + 2) 0))
          = (fun i => (seq_step df (compute_atr df ap)
            (rp.filter (fun l => (posOf df l).isSome)) k g tol mm strict
            ((pp.filter (fun l => (posOf df l).isSome)).getD i 0)
            ((pp.filter (fun l => (posOf df l).isSome)).getD (i + 1) 0)
            ((pp.filter (fun l => (posOf df l).isSome)).getD (i + 2) 0)).map
              (scale_candidate c))
          from funext (fun i => seq_step_scale c hc df (compute_atr df ap) _ k g
            tol mm strict _ _ _)]
      rw [filterMap_option_map, sort_by_score_map_scale]
  refine ⟨hmain, ?_⟩
  rw [hmain, List.map_map]
  apply List.map_congr_left
  intro a ha
  rfl

/-- Claim C9, witness: doubling the price series of `df6` maps the scorer's
candidate list through `scale_candidate 2` (same indices, same scores, same
order). -/
theorem c9_witness :
    find_three_point_sequences (scale_df 2 df6) [0, 2, 4] [0, 2, 4] PKind.low 10
        (1/100) (1/2) 14 false
      = (find_three_point_sequences df6 [0, 2, 4] [0, 2, 4] PKind.low 10 (1/100)
          (1/2) 14 false).map (scale_candidate 2) :=
  (c9_scale_invariance df6 [0, 2, 4] [0, 2, 4] PKind.low 10 (1/100) (1/2) 14 false 2
    (by norm_num)).1

end Stockcharts
